import Mathlib

/-!
Verification of the data-synchronization subsystem of the jidhr repository
(src/sync/donations.py, src/sync/events.py, src/sync/newsletter.py and the
response handling of src/clients/csuite.py, src/clients/hubspot.py).

The development has two levels.

* A value-level embedding: the record-processing functions (donation
  aggregation, the paginated fetch loops, event mapping and the per-record
  sync loops) translated as total Lean functions over structured records.
  At this level backend responses are assumed to be dict-shaped (the shapes
  the code handles without raising); raising behaviour is modelled at the
  second level.

* An exception-level embedding (suffix `E`): the same orchestrators
  translated over raw JSON-like values (`PyObj`) in the `Except` monad, so
  that Python `AttributeError` / `TypeError` / `KeyError` propagation out of
  `sync()` is observable.

Python floats are modelled as exact rationals (`ℚ`); the donation amounts the
system handles are decimal strings, for which float arithmetic questions do
not affect any verified property (sums and choices only).
-/

set_option maxRecDepth 20000

/-! ## Scalar Python values -/

/-- A scalar Python value as it occurs in the JSON record fields handled by
the sync subsystem: `None`, a bool, an int, or a string. -/
inductive PyVal where
  | none
  | bool (b : Bool)
  | int (n : Int)
  | str (s : String)
deriving DecidableEq

/-- Python truthiness of a scalar value (`bool(v)`). -/
def PyVal.truthy : PyVal → Bool
  | .none => false
  | .bool b => b
  | .int n => n != 0
  | .str s => s != ""

/-- Python `a or b` on scalar values: `a` if truthy, else `b`. -/
def pyOr (a b : PyVal) : PyVal := if a.truthy then a else b

/-- Canonical form used to model Python `==`: `True == 1` and `False == 0`,
so bools canonicalize to ints. -/
def PyVal.canon : PyVal → PyVal
  | .bool b => .int (if b then 1 else 0)
  | v => v

/-- Python `==` on scalar values (bools compare equal to the ints 0/1;
values of different types are unequal). -/
def pyEq (a b : PyVal) : Bool := a.canon == b.canon

/-! ## String helpers (defined over the character list so that they evaluate
by kernel reduction; Python's `str.lower`/`str.strip` are modelled on the
ASCII range, which covers the email/date/name strings the syncs handle) -/

/-- Whitespace test used by the model of `str.strip()`. -/
def isSpaceC (c : Char) : Bool := c = ' ' || c = '\t' || c = '\n' || c = '\r'

/-- Model of Python `str.strip()`. -/
def trimS (s : String) : String :=
  ⟨((s.data.dropWhile isSpaceC).reverse.dropWhile isSpaceC).reverse⟩

/-- Model of Python `str.lower()` (ASCII). -/
def lowerS (s : String) : String := ⟨s.data.map Char.toLower⟩

/-- Code-point lexicographic `<` on character lists (Python string `<`). -/
def lexLt : List Char → List Char → Bool
  | [], [] => false
  | [], _ :: _ => true
  | _ :: _, [] => false
  | a :: as, b :: bs => a.val < b.val || (a.val == b.val && lexLt as bs)

/-- Python string `<`. -/
def pyStrLt (a b : String) : Bool := lexLt a.data b.data

/-- Python string `<=`. -/
def pyStrLe (a b : String) : Bool := a == b || pyStrLt a b

/-- Substring test (`needle in hay` for Python strings). -/
def hasInfixS (needle hay : String) : Bool :=
  hay.data.tails.any (needle.data.isPrefixOf ·)

/-- Decimal digits of a natural number (the first argument is an iteration
bound, always sufficient at `n + 1` since `n / 10 < n` for `n ≥ 10`). -/
def natDigitsA : Nat → Nat → List Char
  | 0, _ => []
  | fuel + 1, n =>
    if n < 10 then [Char.ofNat (48 + n)]
    else natDigitsA fuel (n / 10) ++ [Char.ofNat (48 + n % 10)]

/-- Decimal representation of a natural number. -/
def natRepr (n : Nat) : String := ⟨natDigitsA (n + 1) n⟩

/-- Decimal representation of an integer. -/
def intRepr (n : Int) : String :=
  if n < 0 then "-" ++ natRepr n.natAbs else natRepr n.natAbs

/-- Python `str(v)` on scalar values. -/
def pyStr : PyVal → String
  | .none => "None"
  | .bool b => if b then "True" else "False"
  | .int n => intRepr n
  | .str s => s

/-! ## Model of Python `float(...)` -/

/-- Digit test. -/
def isDigitC (c : Char) : Bool := 48 ≤ c.toNat && c.toNat ≤ 57

/-- Value of a digit list read in base 10. -/
def natOfDigits (cs : List Char) : Nat :=
  cs.foldl (fun a c => a * 10 + (c.toNat - 48)) 0

/-- Parse a decimal literal (optional sign, integer part, optional `.` and
fractional part) to an exact rational. Exponent notation and `inf`/`nan`
are not modelled; on them the model reports a parse failure, which the
aggregator turns into the amount 0 exactly as for any other unparsable
string. -/
def parseDecimalChars (cs : List Char) : Option ℚ :=
  let sr : ℚ × List Char :=
    match cs with
    | '-' :: r => (-1, r)
    | '+' :: r => (1, r)
    | r => (1, r)
  let sgn := sr.1
  let ip := sr.2.takeWhile isDigitC
  let r2 := sr.2.dropWhile isDigitC
  match r2 with
  | [] => if ip.isEmpty then Option.none else some (sgn * natOfDigits ip)
  | '.' :: r3 =>
    let fp := r3.takeWhile isDigitC
    let r4 := r3.dropWhile isDigitC
    if r4.isEmpty && !(ip.isEmpty && fp.isEmpty) then
      some (sgn * ((natOfDigits ip : ℚ) + (natOfDigits fp : ℚ) / ((10 : ℚ) ^ fp.length)))
    else Option.none
  | _ => Option.none

/-- Model of Python `float(v)` on scalar values, as an exact rational.
`float(None)` raises `TypeError` (reported as `none`; the caller in
`aggregate_donations` catches it), `float` of a string strips whitespace
first. -/
def pyFloat : PyVal → Option ℚ
  | .none => Option.none
  | .bool b => some (if b then 1 else 0)
  | .int n => some (n : ℚ)
  | .str s => parseDecimalChars (trimS s).data

/-! ## Donation records and `DonationSync.aggregate_donations`
(src/sync/donations.py lines 77-132).

A record field holds `Option PyVal`: `Option.none` models an absent key, so
`field.getD d` is Python's `record.get(key, d)`. -/

/-- A CSuite donation record (the fields `aggregate_donations` reads). -/
structure Donation where
  profile_id : Option PyVal
  donation_amount : Option PyVal
  donation_date : Option PyVal
deriving DecidableEq

/-- `float(donation.get("donation_amount", "0"))`, defaulting to 0.0 when the
parse raises (`except (ValueError, TypeError): amount = 0.0`). -/
def donAmount (d : Donation) : ℚ :=
  (pyFloat (d.donation_amount.getD (.str "0"))).getD 0

/-- `donation.get("donation_date", "")`. -/
def donDate (d : Donation) : PyVal := d.donation_date.getD (.str "")

/-- The per-profile accumulator during the first pass: running `total`,
`count` and the retained `(amount, date)` pairs, in input order. -/
structure AggW where
  total : ℚ
  count : Nat
  donations : List (ℚ × PyVal)
deriving DecidableEq

/-- First lookup by Python key equality in an insertion-ordered association
list (the model of a Python dict built only by item assignment). -/
def lookupPy {α : Type} (k : PyVal) : List (PyVal × α) → Option α
  | [] => Option.none
  | (k', v) :: m => if pyEq k' k then some v else lookupPy k m

/-- `aggregates[profile_id]` followed by the three updates of one loop
iteration: create the defaultdict entry on a missing key, then add `a` to
`total`, bump `count`, append `(a, dt)` to the retained list. -/
def updAdd : List (PyVal × AggW) → PyVal → ℚ → PyVal → List (PyVal × AggW)
  | [], k, a, dt => [(k, ⟨a, 1, [(a, dt)]⟩)]
  | (k', w) :: m, k, a, dt =>
    if pyEq k' k then (k', ⟨w.total + a, w.count + 1, w.donations ++ [(a, dt)]⟩) :: m
    else (k', w) :: updAdd m k a dt

/-- One iteration of the first loop of `aggregate_donations`: skip falsy
`profile_id`, otherwise accumulate. -/
def aggStep (m : List (PyVal × AggW)) (d : Donation) : List (PyVal × AggW) :=
  let pid := d.profile_id.getD .none
  if pid.truthy then updAdd m pid (donAmount d) (donDate d) else m

/-- The first pass of `aggregate_donations` over the donation list. -/
def aggPass (dons : List Donation) : List (PyVal × AggW) :=
  dons.foldl aggStep []

/-- The sort key of the second pass: `lambda x: x['date'] or ''`, as a
string. (The donation dates the code sorts are ISO date strings or falsy;
a truthy non-string date would make Python's `sorted` raise on a mixed
list — every stated property that runs the aggregator bounds dates to
string-or-falsy, in particular `WFDonationB` on the no-raise side — and
is rendered via `str` only to keep this value-level pass total.) -/
def donKey (x : ℚ × PyVal) : String :=
  match pyOr x.2 (.str "") with
  | .str s => s
  | v => pyStr v

/-- Stable descending insertion: the new element (earlier in input order)
is placed before every element whose key is `≤` its key. Together with
`sortDescBy` this models Python's `sorted(key=..., reverse=True)`, which is
stable: elements with equal keys keep their original relative order. -/
def insertDescBy {α : Type} (key : α → String) (a : α) : List α → List α
  | [] => [a]
  | b :: l => if pyStrLe (key b) (key a) then a :: b :: l else b :: insertDescBy key a l

/-- Stable descending sort by a string key (Python
`sorted(key=..., reverse=True)`). -/
def sortDescBy {α : Type} (key : α → String) : List α → List α
  | [] => []
  | b :: l => insertDescBy key b (sortDescBy key l)

/-- A finished per-profile aggregate as returned by `aggregate_donations`
(the retained donation list is deleted). -/
structure Agg where
  total : ℚ
  count : Nat
  last_date : PyVal
  last_amount : ℚ
deriving DecidableEq

/-- The second pass for one profile: sort the retained pairs by date
descending and take the first as `(last_date, last_amount)`; on an empty
list the fields keep their defaults `None` / `0.0`. -/
def finalizeAgg (w : AggW) : Agg :=
  match sortDescBy donKey w.donations with
  | [] => ⟨w.total, w.count, .none, 0⟩
  | x :: _ => ⟨w.total, w.count, x.2, x.1⟩

/-- `DonationSync.aggregate_donations`: the insertion-ordered mapping from
truthy `profile_id` to its aggregate. -/
def aggregate_donations (dons : List Donation) : List (PyVal × Agg) :=
  (aggPass dons).map (fun kw => (kw.1, finalizeAgg kw.2))

/-! ## Lemmas about the aggregator -/

theorem pyEq_iff_canon (a b : PyVal) : pyEq a b = true ↔ a.canon = b.canon := by
  simp [pyEq]

theorem pyEq_false_of_falsy_truthy (a b : PyVal)
    (ha : a.truthy = false) (hb : b.truthy = true) : pyEq a b = false := by
  cases a <;> cases b <;>
    simp_all [PyVal.truthy, pyEq, PyVal.canon] <;> exact fun h => hb h.symm

/-- Sum of the running totals across an accumulator map. -/
def totalsW (m : List (PyVal × AggW)) : ℚ := (m.map (fun kw => kw.2.total)).sum

/-- Running count of a key across an accumulator map (0 when absent). -/
def countW (p : PyVal) (m : List (PyVal × AggW)) : Nat :=
  match lookupPy p m with
  | some w => w.count
  | _ => 0

/-- Retained donation list of a key across an accumulator map. -/
def donsW (p : PyVal) (m : List (PyVal × AggW)) : List (ℚ × PyVal) :=
  match lookupPy p m with
  | some w => w.donations
  | _ => []

theorem totalsW_updAdd (m : List (PyVal × AggW)) (k : PyVal) (a : ℚ) (dt : PyVal) :
    totalsW (updAdd m k a dt) = totalsW m + a := by
  induction m with
  | nil => simp [updAdd, totalsW]
  | cons hd tl ih =>
    obtain ⟨k', w⟩ := hd
    by_cases h : pyEq k' k
    · simp [updAdd, h, totalsW] at ih ⊢
      ring
    · simp [updAdd, h, totalsW] at ih ⊢
      rw [ih]
      ring

theorem countW_updAdd (m : List (PyVal × AggW)) (k : PyVal) (a : ℚ) (dt : PyVal) (p : PyVal) :
    countW p (updAdd m k a dt) = countW p m + (if pyEq k p then 1 else 0) := by
  induction m with
  | nil =>
    by_cases h : pyEq k p <;> simp [updAdd, countW, lookupPy, h]
  | cons hd tl ih =>
    obtain ⟨k', w⟩ := hd
    by_cases h : pyEq k' k
    · have hck : k'.canon = k.canon := (pyEq_iff_canon k' k).mp h
      by_cases hp : pyEq k' p
      · have hcp : k'.canon = p.canon := (pyEq_iff_canon k' p).mp hp
        have hkp : pyEq k p = true := (pyEq_iff_canon k p).mpr (hck ▸ hcp)
        simp [updAdd, h, countW, lookupPy, hp, hkp]
      · have hkp : pyEq k p = false := by
          rw [Bool.eq_false_iff]
          intro hc
          exact hp ((pyEq_iff_canon k' p).mpr (hck.trans ((pyEq_iff_canon k p).mp hc)))
        simp [updAdd, h, countW, lookupPy, hp, hkp]
    · by_cases hp : pyEq k' p
      · have hcp : k'.canon = p.canon := (pyEq_iff_canon k' p).mp hp
        have hkp : pyEq k p = false := by
          rw [Bool.eq_false_iff]
          intro hc
          exact h ((pyEq_iff_canon k' k).mpr (hcp.trans ((pyEq_iff_canon k p).mp hc).symm))
        simp [updAdd, h, countW, lookupPy, hp, hkp]
      · simpa [updAdd, h, countW, lookupPy, hp] using ih

theorem donsW_updAdd (m : List (PyVal × AggW)) (k : PyVal) (a : ℚ) (dt : PyVal) (p : PyVal) :
    donsW p (updAdd m k a dt) = donsW p m ++ (if pyEq k p then [(a, dt)] else []) := by
  induction m with
  | nil =>
    by_cases h : pyEq k p <;> simp [updAdd, donsW, lookupPy, h]
  | cons hd tl ih =>
    obtain ⟨k', w⟩ := hd
    by_cases h : pyEq k' k
    · have hck : k'.canon = k.canon := (pyEq_iff_canon k' k).mp h
      by_cases hp : pyEq k' p
      · have hcp : k'.canon = p.canon := (pyEq_iff_canon k' p).mp hp
        have hkp : pyEq k p = true := (pyEq_iff_canon k p).mpr (hck ▸ hcp)
        simp [updAdd, h, donsW, lookupPy, hp, hkp]
      · have hkp : pyEq k p = false := by
          rw [Bool.eq_false_iff]
          intro hc
          exact hp ((pyEq_iff_canon k' p).mpr (hck.trans ((pyEq_iff_canon k p).mp hc)))
        simp [updAdd, h, donsW, lookupPy, hp, hkp]
    · by_cases hp : pyEq k' p
      · have hcp : k'.canon = p.canon := (pyEq_iff_canon k' p).mp hp
        have hkp : pyEq k p = false := by
          rw [Bool.eq_false_iff]
          intro hc
          exact h ((pyEq_iff_canon k' k).mpr (hcp.trans ((pyEq_iff_canon k p).mp hc).symm))
        simp [updAdd, h, donsW, lookupPy, hp, hkp]
      · simpa [updAdd, h, donsW, lookupPy, hp] using ih

/-- The donations of `l` whose `profile_id` compares `==` to `p`, projected
to their `(amount, date)` contribution, in input order. -/
def profileDons (p : PyVal) (l : List Donation) : List (ℚ × PyVal) :=
  (l.filter (fun d => pyEq (d.profile_id.getD .none) p)).map
    (fun d => (donAmount d, donDate d))

theorem totalsW_foldl (l : List Donation) :
    ∀ m, totalsW (l.foldl aggStep m)
      = totalsW m
        + ((l.filter (fun d => (d.profile_id.getD .none).truthy)).map donAmount).sum := by
  induction l with
  | nil => intro m; simp
  | cons d l ih =>
    intro m
    by_cases h : (d.profile_id.getD .none).truthy
    · simp only [List.foldl_cons, ih, aggStep, h, if_true, List.filter_cons_of_pos,
        List.map_cons, List.sum_cons, totalsW_updAdd]
      ring
    · simp only [List.foldl_cons, ih, aggStep, h, if_false, Bool.false_eq_true,
        List.filter_cons_of_neg]
      simp [h]

theorem countW_foldl (l : List Donation) (p : PyVal) (hp : p.truthy = true) :
    ∀ m, countW p (l.foldl aggStep m)
      = countW p m + (l.filter (fun d => pyEq (d.profile_id.getD .none) p)).length := by
  induction l with
  | nil => intro m; simp
  | cons d l ih =>
    intro m
    by_cases h : (d.profile_id.getD .none).truthy
    · by_cases he : pyEq (d.profile_id.getD .none) p
      · simp only [List.foldl_cons, ih, aggStep, h, if_true, countW_updAdd, he,
          List.filter_cons_of_pos]
        simp
        omega
      · simp only [List.foldl_cons, ih, aggStep, h, if_true, countW_updAdd, he,
          List.filter_cons_of_neg]
        simp [he]
    · have he : pyEq (d.profile_id.getD .none) p = false :=
        pyEq_false_of_falsy_truthy _ _ (by simpa using h) hp
      simp only [List.foldl_cons, aggStep, h, if_false, Bool.false_eq_true, ih,
        List.filter_cons_of_neg]
      simp [he]

theorem donsW_foldl (l : List Donation) (p : PyVal) (hp : p.truthy = true) :
    ∀ m, donsW p (l.foldl aggStep m) = donsW p m ++ profileDons p l := by
  induction l with
  | nil => intro m; simp [profileDons]
  | cons d l ih =>
    intro m
    by_cases h : (d.profile_id.getD .none).truthy
    · by_cases he : pyEq (d.profile_id.getD .none) p
      · simp only [List.foldl_cons, ih, aggStep, h, if_true, donsW_updAdd, he, if_true,
          profileDons, List.filter_cons_of_pos, List.map_cons]
        simp [profileDons]
      · simp only [List.foldl_cons, ih, aggStep, h, if_true, donsW_updAdd, he,
          profileDons, List.filter_cons_of_neg]
        simp [profileDons, he]
    · have he : pyEq (d.profile_id.getD .none) p = false :=
        pyEq_false_of_falsy_truthy _ _ (by simpa using h) hp
      simp only [List.foldl_cons, aggStep, h, if_false, Bool.false_eq_true, ih,
        profileDons, List.filter_cons_of_neg]
      simp [profileDons, he]

/-- The first element of a list attaining the maximal key (ties go to the
earlier element). -/
def firstMaxBy {α : Type} (key : α → String) : List α → Option α
  | [] => Option.none
  | a :: l =>
    match firstMaxBy key l with
    | Option.none => some a
    | some b => if pyStrLe (key b) (key a) then some a else some b

theorem sortDescBy_head {α : Type} (key : α → String) (l : List α) :
    (sortDescBy key l).head? = firstMaxBy key l := by
  induction l with
  | nil => rfl
  | cons a l ih =>
    show (insertDescBy key a (sortDescBy key l)).head? = _
    cases h : sortDescBy key l with
    | nil =>
      have hfm : firstMaxBy key l = Option.none := by rw [← ih, h]; rfl
      simp [insertDescBy, firstMaxBy, hfm]
    | cons b t =>
      have hfm : firstMaxBy key l = some b := by rw [← ih, h]; rfl
      by_cases hle : pyStrLe (key b) (key a) <;>
        simp [insertDescBy, firstMaxBy, hfm, hle]

theorem insertDescBy_length {α : Type} (key : α → String) (a : α) (l : List α) :
    (insertDescBy key a l).length = l.length + 1 := by
  induction l with
  | nil => rfl
  | cons b t ih =>
    by_cases h : pyStrLe (key b) (key a) <;> simp [insertDescBy, h, ih]

theorem sortDescBy_length {α : Type} (key : α → String) (l : List α) :
    (sortDescBy key l).length = l.length := by
  induction l with
  | nil => rfl
  | cons b t ih => simp [sortDescBy, insertDescBy_length, ih]

theorem lookupPy_map {α β : Type} (f : α → β) (p : PyVal) (m : List (PyVal × α)) :
    lookupPy p (m.map (fun kw => (kw.1, f kw.2))) = (lookupPy p m).map f := by
  induction m with
  | nil => rfl
  | cons hd tl ih =>
    obtain ⟨k, v⟩ := hd
    by_cases h : pyEq k p <;> simp [lookupPy, h, ih]

theorem lookupPy_exists_mem {α : Type} (p : PyVal) (m : List (PyVal × α)) (v : α)
    (h : lookupPy p m = some v) : ∃ k, (k, v) ∈ m := by
  induction m with
  | nil => simp [lookupPy] at h
  | cons hd tl ih =>
    obtain ⟨k, w⟩ := hd
    by_cases hk : pyEq k p
    · simp [lookupPy, hk] at h
      exact ⟨k, by simp [h]⟩
    · simp only [lookupPy, hk, if_neg, Bool.false_eq_true, if_false] at h
      obtain ⟨k', hk'⟩ := ih h
      exact ⟨k', List.mem_cons_of_mem _ hk'⟩

theorem finalizeAgg_total (w : AggW) : (finalizeAgg w).total = w.total := by
  cases h : sortDescBy donKey w.donations <;> simp [finalizeAgg, h]

theorem finalizeAgg_count (w : AggW) : (finalizeAgg w).count = w.count := by
  cases h : sortDescBy donKey w.donations <;> simp [finalizeAgg, h]

theorem updAdd_donations_ne (m : List (PyVal × AggW)) (k : PyVal) (a : ℚ) (dt : PyVal)
    (h : ∀ kw ∈ m, kw.2.donations ≠ []) :
    ∀ kw ∈ updAdd m k a dt, kw.2.donations ≠ [] := by
  induction m with
  | nil => simp [updAdd]
  | cons hd tl ih =>
    obtain ⟨k', w⟩ := hd
    by_cases hk : pyEq k' k
    · intro kw hkw
      simp only [updAdd, hk, if_true] at hkw
      rcases List.mem_cons.mp hkw with h1 | h2
      · subst h1; simp
      · exact h kw (List.mem_cons_of_mem _ h2)
    · intro kw hkw
      simp only [updAdd, hk, Bool.false_eq_true, if_false] at hkw
      rcases List.mem_cons.mp hkw with h1 | h2
      · subst h1; exact h _ (by simp)
      · exact ih (fun x hx => h x (List.mem_cons_of_mem _ hx)) kw h2

theorem aggPass_donations_ne (l : List Donation) :
    ∀ kw ∈ aggPass l, kw.2.donations ≠ [] := by
  have main : ∀ (l : List Donation) (m : List (PyVal × AggW)),
      (∀ kw ∈ m, kw.2.donations ≠ []) →
      ∀ kw ∈ l.foldl aggStep m, kw.2.donations ≠ [] := by
    intro l
    induction l with
    | nil => intro m hm; simpa using hm
    | cons d t ih =>
      intro m hm
      simp only [List.foldl_cons]
      refine ih _ ?_
      unfold aggStep
      by_cases h : (d.profile_id.getD .none).truthy
      · simp only [h, if_true]
        exact updAdd_donations_ne m _ _ _ hm
      · simpa [h] using hm
  exact main l [] (by simp)

theorem updAdd_keys_truthy (m : List (PyVal × AggW)) (k : PyVal) (a : ℚ) (dt : PyVal)
    (hm : ∀ kw ∈ m, kw.1.truthy = true) (hk : k.truthy = true) :
    ∀ kw ∈ updAdd m k a dt, kw.1.truthy = true := by
  induction m with
  | nil => simpa [updAdd] using hk
  | cons hd tl ih =>
    obtain ⟨k', w⟩ := hd
    by_cases h : pyEq k' k
    · intro kw hkw
      simp only [updAdd, h, if_true] at hkw
      rcases List.mem_cons.mp hkw with h1 | h2
      · subst h1; exact hm (k', w) (by simp)
      · exact hm kw (List.mem_cons_of_mem _ h2)
    · intro kw hkw
      simp only [updAdd, h, Bool.false_eq_true, if_false] at hkw
      rcases List.mem_cons.mp hkw with h1 | h2
      · subst h1; exact hm _ (by simp)
      · exact ih (fun x hx => hm x (List.mem_cons_of_mem _ hx)) kw h2

theorem aggPass_keys_truthy (l : List Donation) :
    ∀ kw ∈ aggPass l, kw.1.truthy = true := by
  have main : ∀ (l : List Donation) (m : List (PyVal × AggW)),
      (∀ kw ∈ m, kw.1.truthy = true) →
      ∀ kw ∈ l.foldl aggStep m, kw.1.truthy = true := by
    intro l
    induction l with
    | nil => intro m hm; simpa using hm
    | cons d t ih =>
      intro m hm
      simp only [List.foldl_cons]
      refine ih _ ?_
      unfold aggStep
      by_cases h : (d.profile_id.getD .none).truthy
      · simp only [h, if_true]
        exact updAdd_keys_truthy m _ _ _ hm h
      · simpa [h] using hm
  exact main l [] (by simp)

/-- Count of a profile key in the final aggregate mapping (0 when absent). -/
def countAgg (p : PyVal) (m : List (PyVal × Agg)) : Nat :=
  match lookupPy p m with
  | some a => a.count
  | _ => 0

/-! ## Claim theorems about the donation aggregator -/

/-- C1: for every donation list, the sum of `total` over all profiles of
`aggregate_donations` equals the sum of the parsed `donation_amount` over
all donations with a truthy `profile_id` (unparsable amounts contributing
0 via `donAmount`), and for every profile key the aggregate `count` equals
the number of input donations referencing that `profile_id`. -/
theorem donation_aggregate_total_and_count (l : List Donation) :
    ((aggregate_donations l).map (fun kv => kv.2.total)).sum
      = ((l.filter (fun d => (d.profile_id.getD .none).truthy)).map donAmount).sum
    ∧ ∀ p : PyVal, p.truthy = true →
        countAgg p (aggregate_donations l)
          = (l.filter (fun d => pyEq (d.profile_id.getD .none) p)).length := by
  constructor
  · have hmap : ∀ (m : List (PyVal × AggW)),
        ((m.map (fun kw => (kw.1, finalizeAgg kw.2))).map (fun kv => kv.2.total))
          = m.map (fun kw => kw.2.total) := by
      intro m
      induction m with
      | nil => rfl
      | cons hd tl ih => simp [finalizeAgg_total, ih]
    have := totalsW_foldl l []
    simp only [totalsW] at this
    simpa [aggregate_donations, aggPass, hmap] using this
  · intro p hp
    have hcw : countAgg p (aggregate_donations l) = countW p (aggPass l) := by
      unfold countAgg countW aggregate_donations
      rw [lookupPy_map]
      cases lookupPy p (aggPass l) with
      | none => rfl
      | some w => simp [finalizeAgg_count]
    have := countW_foldl l p hp []
    simpa [hcw, aggPass, countW, lookupPy] using this

/-- Demonstration donations for the aggregate witnesses: two donations of
profile `p1` on distinct dates and one without a `profile_id`. -/
def demoD1 : Donation := ⟨some (.str "p1"), some (.str "10"), some (.str "2024-01-01")⟩

/-- Second demonstration donation (the later date, amount 20). -/
def demoD2 : Donation := ⟨some (.str "p1"), some (.str "20"), some (.str "2024-06-01")⟩

/-- Demonstration donation without a `profile_id`. -/
def demoD3 : Donation := ⟨Option.none, some (.str "5"), Option.none⟩

/-- The demonstration donation list. -/
def demoDons : List Donation := [demoD1, demoD2, demoD3]

/-- Witness for C1 at a concrete input: `p1` is truthy and its count is the
number of donations referencing `p1`. -/
theorem donation_aggregate_total_and_count_witness :
    (PyVal.str "p1").truthy = true
    ∧ countAgg (.str "p1") (aggregate_donations demoDons)
        = (demoDons.filter (fun d => pyEq (d.profile_id.getD .none) (.str "p1"))).length :=
  ⟨by decide, (donation_aggregate_total_and_count demoDons).2 (.str "p1") (by decide)⟩

/-- C5 (amended): for every profile present in the aggregate, `last_amount`
and `last_date` come from the FIRST donation (in input order, over the
donations referencing that profile) attaining the maximal sort key
`date or ''`: Python's `sorted(..., reverse=True)` is stable and does not
reverse the relative order of same-date donations. -/
theorem donation_last_amount_first_of_max_date (l : List Donation) (p : PyVal)
    (hp : p.truthy = true) (a : Agg)
    (h : lookupPy p (aggregate_donations l) = some a) :
    (firstMaxBy donKey (profileDons p l)).map Prod.fst = some a.last_amount
    ∧ (firstMaxBy donKey (profileDons p l)).map Prod.snd = some a.last_date := by
  unfold aggregate_donations at h
  rw [lookupPy_map] at h
  obtain ⟨w, hw, hfw⟩ := Option.map_eq_some'.mp h
  have hdons : w.donations = profileDons p l := by
    have h3 : donsW p (aggPass l) = donsW p [] ++ profileDons p l := donsW_foldl l p hp []
    have h4 : donsW p (aggPass l) = w.donations := by simp [donsW, hw]
    rw [← h4, h3]
    rfl
  have hne : w.donations ≠ [] := by
    obtain ⟨k, hk⟩ := lookupPy_exists_mem p (aggPass l) w hw
    exact aggPass_donations_ne l (k, w) hk
  have hs : (sortDescBy donKey w.donations).length = w.donations.length :=
    sortDescBy_length _ _
  cases hsort : sortDescBy donKey w.donations with
  | nil =>
    rw [hsort] at hs
    exact absurd (List.length_eq_zero.mp hs.symm) hne
  | cons x t =>
    have hhead : firstMaxBy donKey w.donations = some x := by
      rw [← sortDescBy_head, hsort]; rfl
    have ha : a = ⟨w.total, w.count, x.2, x.1⟩ := by
      rw [← hfw]
      unfold finalizeAgg
      rw [hsort]
    rw [ha, ← hdons, hhead]
    constructor <;> rfl

/-- Witness for the amended C5 at a concrete input: for `demoDons` the
maximal-date donation is `demoD2`, and `last_amount` follows it. -/
theorem donation_last_amount_first_of_max_date_witness :
    (PyVal.str "p1").truthy = true
    ∧ (firstMaxBy donKey (profileDons (.str "p1") demoDons)).map Prod.fst
        = some (Agg.last_amount ⟨donAmount demoD1 + donAmount demoD2, 2,
            donDate demoD2, donAmount demoD2⟩) :=
  ⟨by decide,
    (donation_last_amount_first_of_max_date demoDons (.str "p1") (by decide)
      ⟨donAmount demoD1 + donAmount demoD2, 2, donDate demoD2, donAmount demoD2⟩
      rfl).1⟩

/-- Two donations of the same profile sharing the maximal date; the claim
C5 predicts `last_amount = 20` (the later one), the code yields 10. -/
def cexTie1 : Donation := ⟨some (.str "p1"), some (.str "10"), some (.str "2024-06-01")⟩

/-- The second (last-encountered) same-date donation, amount 20. -/
def cexTie2 : Donation := ⟨some (.str "p1"), some (.str "20"), some (.str "2024-06-01")⟩

/-- The tie counterexample list. -/
def cexTieDons : List Donation := [cexTie1, cexTie2]

/-- Counterexample to C5 as stated: with two same-date donations (amounts
10 then 20) the aggregate's `last_amount` is 10 — the amount of the
donation encountered FIRST in input order — not 20, the amount of the one
encountered last. -/
theorem donation_last_amount_not_last_encountered :
    (lookupPy (.str "p1") (aggregate_donations cexTieDons)).map Agg.last_amount
      = some (donAmount cexTie1)
    ∧ donAmount cexTie1 = 10 ∧ donAmount cexTie2 = 20 ∧ (10 : ℚ) ≠ 20 := by
  refine ⟨rfl, ?_, ?_, by norm_num⟩
  · have h : donAmount cexTie1 = 1 * ((10 : ℕ) : ℚ) := rfl
    rw [h]; norm_num
  · have h : donAmount cexTie2 = 1 * ((20 : ℕ) : ℚ) := rfl
    rw [h]; norm_num

/-- C9: a donation whose `profile_id` is falsy (absent, `None`, `0`, `False`
or the empty string) contributes to no aggregate at all — removing it does
not change the output — and every key of the returned mapping is truthy
(so `0` and `""` never appear as keys). -/
theorem donation_aggregator_skips_falsy_profile_ids (l₁ l₂ : List Donation) (d : Donation)
    (h : (d.profile_id.getD .none).truthy = false) :
    aggregate_donations (l₁ ++ d :: l₂) = aggregate_donations (l₁ ++ l₂)
    ∧ ∀ kw ∈ aggregate_donations (l₁ ++ d :: l₂),
        kw.1.truthy = true ∧ kw.1 ≠ .int 0 ∧ kw.1 ≠ .str "" := by
  constructor
  · unfold aggregate_donations aggPass
    rw [List.foldl_append, List.foldl_append, List.foldl_cons]
    have : aggStep (l₁.foldl aggStep []) d = l₁.foldl aggStep [] := by
      simp [aggStep, h]
    rw [this]
  · intro kw hkw
    unfold aggregate_donations at hkw
    obtain ⟨kw', hkw', he⟩ := List.mem_map.mp hkw
    have ht : kw'.1.truthy = true := aggPass_keys_truthy _ kw' hkw'
    have h1 : kw.1 = kw'.1 := by rw [← he]
    refine ⟨h1 ▸ ht, ?_, ?_⟩
    · intro hz; rw [← h1, hz] at ht; simp [PyVal.truthy] at ht
    · intro hz; rw [← h1, hz] at ht; simp [PyVal.truthy] at ht

/-- A donation with `profile_id` 0, for the C9 witness. -/
def cexZeroPid : Donation := ⟨some (.int 0), some (.str "7"), some (.str "2024-01-01")⟩

/-- Witness for C9 at a concrete input: the zero-`profile_id` donation is
falsy and dropping it leaves the aggregate of `[demoD1]` unchanged. -/
theorem donation_aggregator_skips_falsy_profile_ids_witness :
    (cexZeroPid.profile_id.getD .none).truthy = false
    ∧ (aggregate_donations ([demoD1] ++ cexZeroPid :: [])
          = aggregate_donations ([demoD1] ++ [])
      ∧ ∀ kw ∈ aggregate_donations ([demoD1] ++ cexZeroPid :: []),
          kw.1.truthy = true ∧ kw.1 ≠ .int 0 ∧ kw.1 ≠ .str "") :=
  ⟨by decide, donation_aggregator_skips_falsy_profile_ids [demoD1] [] cexZeroPid (by decide)⟩

/-! ## The paginated fetch loops
(`DonationSync.get_profile_emails`, `DonationSync.get_donations_with_limit`,
`NewsletterSync.get_opted_in_profiles`;
src/sync/donations.py lines 32-75 and 249-286, src/sync/newsletter.py lines
29-81).

The source API is modelled as a list of records with page/offset semantics:
the request `get_...(limit=batch, offset=o)` returns `(src.drop o).take
batch`. At this level every page request succeeds; the failure branch
(`if not result.get("success"): break`) and response-shape errors are
modelled in the exception-level embedding below. The `while True` loops are
written with an explicit iteration bound (first argument); the wrappers
supply a bound that is never reached, since a loop iteration that recurses
consumes a full page of 100 records. -/

/-- A CSuite profile record (the fields the fetch loops read). -/
structure Profile where
  profile_id : Option PyVal
  primary_email : Option PyVal
  newsletter : Option PyVal
  name : Option PyVal
deriving DecidableEq

/-- Python truthiness of the `limit` argument (`if limit and ...`): `None`
and 0 are falsy. -/
def limitTruthy : Option Nat → Bool
  | Option.none => false
  | some n => n != 0

/-- Dict item assignment `d[k] = v` (replace the first matching key,
else append). -/
def assocSet {α : Type} : List (PyVal × α) → PyVal → α → List (PyVal × α)
  | [], k, v => [(k, v)]
  | (k', v') :: m, k, v =>
    if pyEq k' k then (k', v) :: m else (k', v') :: assocSet m k v

/-- `email.lower().strip()` on the scalar email value. (A truthy non-string
email would make Python raise `AttributeError`; such a value is outside
every verified property and is rendered via `str`.) -/
def pyLowerStrip (v : PyVal) : String :=
  match v with
  | .str s => trimS (lowerS s)
  | v => pyStr v

/-- The loop of `DonationSync.get_profile_emails`: page through profiles,
recording `profile_id → email` for every profile with truthy id and email,
and stop when a page is empty, when the cumulative fetched count reaches a
truthy `limit` (WITHOUT truncating the mapping), or when a page is short. -/
def profPagesLoop (fuel : Nat) (src : List Profile) (limit : Option Nat)
    (emails : List (PyVal × String)) (total_fetched offset : Nat) :
    List (PyVal × String) :=
  match fuel with
  | 0 => emails
  | fuel + 1 =>
    let profiles := (src.drop offset).take 100
    if profiles.isEmpty then emails
    else
      let total2 := total_fetched + profiles.length
      let emails2 := profiles.foldl (fun m p =>
        let pid := p.profile_id.getD .none
        let em := p.primary_email.getD .none
        if pid.truthy && em.truthy then assocSet m pid (pyLowerStrip em) else m) emails
      if limitTruthy limit && decide (total2 ≥ limit.getD 0) then emails2
      else if profiles.length < 100 then emails2
      else profPagesLoop fuel src limit emails2 total2 (offset + 100)

/-- `DonationSync.get_profile_emails(limit)` against a source list. -/
def get_profile_emails (src : List Profile) (limit : Option Nat) :
    List (PyVal × String) :=
  profPagesLoop (src.length + 1) src limit [] 0 0

/-- The loop of `DonationSync.get_donations_with_limit`: page through
donations, extending the result list, and stop when a page is empty, when
the cumulative count reaches a truthy `limit` (truncating to exactly the
limit), or when a page is short. -/
def donPagesLoop (fuel : Nat) (src : List Donation) (limit : Option Nat)
    (all : List Donation) (offset : Nat) : List Donation :=
  match fuel with
  | 0 => all
  | fuel + 1 =>
    let dons := (src.drop offset).take 100
    if dons.isEmpty then all
    else
      let all2 := all ++ dons
      if limitTruthy limit && decide (all2.length ≥ limit.getD 0) then
        all2.take (limit.getD 0)
      else if dons.length < 100 then all2
      else donPagesLoop fuel src limit all2 (offset + 100)

/-- `DonationSync.get_donations_with_limit(limit)` against a source list. -/
def get_donations_with_limit (src : List Donation) (limit : Option Nat) :
    List Donation :=
  donPagesLoop (src.length + 1) src limit [] 0

/-- An entry of the list built by `NewsletterSync.get_opted_in_profiles`. -/
structure OptIn where
  profile_id : PyVal
  email : String
  name : PyVal
deriving DecidableEq

/-- The loop of `NewsletterSync.get_opted_in_profiles`: page through
profiles, appending every profile with a truthy email and `newsletter == 1`,
and stop when a page is empty, when the cumulative CHECKED count reaches a
truthy `limit` (without truncating), or when a page is short. -/
def optPagesLoop (fuel : Nat) (src : List Profile) (limit : Option Nat)
    (opted : List OptIn) (checked offset : Nat) : List OptIn :=
  match fuel with
  | 0 => opted
  | fuel + 1 =>
    let profiles := (src.drop offset).take 100
    if profiles.isEmpty then opted
    else
      let opted2 := profiles.foldl (fun acc p =>
        let em := p.primary_email.getD .none
        let nl := p.newsletter.getD (.int 0)
        if em.truthy && pyEq nl (.int 1) then
          acc ++ [⟨p.profile_id.getD .none, pyLowerStrip em, p.name.getD (.str "")⟩]
        else acc) opted
      let checked2 := checked + profiles.length
      if limitTruthy limit && decide (checked2 ≥ limit.getD 0) then opted2
      else if profiles.length < 100 then opted2
      else optPagesLoop fuel src limit opted2 checked2 (offset + 100)

/-- `NewsletterSync.get_opted_in_profiles(limit)` against a source list. -/
def get_opted_in_profiles (src : List Profile) (limit : Option Nat) : List OptIn :=
  optPagesLoop (src.length + 1) src limit [] 0 0

/-! ## Claim theorems about the paginated fetchers -/

theorem donPagesLoop_take (n : Nat) (src : List Donation) :
    ∀ (fuel offset : Nat),
      0 < n → n ≤ src.length →
      (src.take offset).length < n →
      (src.drop offset).length < fuel →
      donPagesLoop fuel src (some n) (src.take offset) offset = src.take n := by
  intro fuel
  induction fuel with
  | zero =>
    intro offset h0 hn hlt hfuel
    omega
  | succ fuel ih =>
    intro offset h0 hn hlt hfuel
    simp only [List.length_take] at hlt
    simp only [List.length_drop] at hfuel
    have hoff : offset < src.length := by omega
    have hdlen : ((src.drop offset).take 100).length = min 100 (src.length - offset) := by
      simp [List.length_take, List.length_drop]
    have hne : ((src.drop offset).take 100).isEmpty = false := by
      rw [List.isEmpty_eq_false_iff_exists_mem]
      have : 0 < ((src.drop offset).take 100).length := by omega
      exact List.exists_mem_of_length_pos this
    have hall2 : src.take offset ++ (src.drop offset).take 100 = src.take (offset + 100) :=
      (List.take_add src offset 100).symm
    have hlen2 : (src.take offset ++ (src.drop offset).take 100).length
        = min (offset + 100) src.length := by
      rw [hall2, List.length_take]
    unfold donPagesLoop
    simp only [hne, Bool.false_eq_true, if_false, limitTruthy]
    have hgd : (some n).getD 0 = n := rfl
    by_cases hbig : (src.take offset ++ (src.drop offset).take 100).length ≥ n
    · have hcond : (decide ¬n = 0 && decide
          ((src.take offset ++ (src.drop offset).take 100).length ≥ (some n).getD 0)) = true := by
        rw [hgd]
        simp only [Bool.and_eq_true, decide_eq_true_eq]
        exact ⟨by omega, hbig⟩
      rw [if_pos (by simpa using hcond)]
      rw [hall2, List.take_take]
      congr 1
      omega
    · have hcond : ((n != 0) && decide
          ((src.take offset ++ (src.drop offset).take 100).length ≥ (some n).getD 0)) = false := by
        rw [hgd]
        simp only [Bool.and_eq_false_iff, decide_eq_false_iff_not, not_le]
        right
        omega
      simp only [hcond, Bool.false_eq_true, if_false]
      have hfull : ¬ ((src.drop offset).take 100).length < 100 := by
        rw [hdlen]
        rw [hlen2] at hbig
        omega
      rw [if_neg hfull]
      rw [hall2]
      refine ih (offset + 100) h0 hn ?_ ?_
      · rw [List.length_take]
        rw [hlen2] at hbig
        omega
      · rw [List.length_drop]
        rw [hdlen] at hfull
        omega

/-- C3 (amended): the donations fetcher truncates to exactly the limit:
for every source of at least `n` records and truthy limit `n`,
`get_donations_with_limit` returns exactly the first `n` records. (The
profile-based fetchers do NOT truncate; see the counterexample.) -/
theorem donations_fetch_limit_truncates_exactly (src : List Donation) (n : Nat)
    (h0 : 0 < n) (hn : n ≤ src.length) :
    get_donations_with_limit src (some n) = src.take n := by
  unfold get_donations_with_limit
  have h := donPagesLoop_take n src (src.length + 1) 0 h0 hn
    (by simpa using h0) (by simp)
  simpa using h

/-- Witness for the amended C3 at a concrete input. -/
theorem donations_fetch_limit_truncates_exactly_witness :
    0 < 2 ∧ 2 ≤ demoDons.length
    ∧ get_donations_with_limit demoDons (some 2) = demoDons.take 2 :=
  ⟨by decide, by decide,
    donations_fetch_limit_truncates_exactly demoDons 2 (by decide) (by decide)⟩

/-- A first profile for the fetcher counterexample. -/
def cexP1 : Profile := ⟨some (.str "a"), some (.str "a@x.org"), some (.int 1), some (.str "A")⟩

/-- A second profile for the fetcher counterexample. -/
def cexP2 : Profile := ⟨some (.str "b"), some (.str "b@x.org"), some (.int 1), some (.str "B")⟩

/-- A two-profile source. -/
def cexProfiles : List Profile := [cexP1, cexP2]

/-- Counterexample to C3 as stated: over a 2-record source with limit 1,
the profile-email fetcher and the opted-in fetcher both return 2 records,
not exactly 1 — they stop paginating once the cumulative count reaches the
limit but do not truncate the page already processed. -/
theorem profile_fetchers_do_not_truncate :
    1 ≤ cexProfiles.length
    ∧ (get_profile_emails cexProfiles (some 1)).length = 2
    ∧ (get_opted_in_profiles cexProfiles (some 1)).length = 2
    ∧ (2 : Nat) ≠ 1 := by decide

/-! ## Event mapping, dedup check and `EventSync.sync`
(src/sync/events.py).

`startDateTime`/`endDateTime` (built by `format_datetime`/
`calculate_end_time` from `datetime.strptime` arithmetic) are not modelled:
no verified property depends on them, and the sync loop treats the built
event opaquely apart from its `externalEventId`. -/

/-- A CSuite event-date record (the fields the event sync reads). -/
structure CEvent where
  event_description : Option PyVal
  event_name : Option PyVal
  event_date : Option PyVal
  start_time : Option PyVal
  event_type_code : Option PyVal
  event_date_id : Option PyVal
  event_id : Option PyVal
  location : Option PyVal
  archived : Option PyVal
deriving DecidableEq

/-- `Config.DEFAULT_EVENT_OWNER_ID`. -/
def DEFAULT_EVENT_OWNER_ID : String := "159996166"

/-- `Config.HUBSPOT_MARKETING_SUBSCRIPTION_ID`. -/
def HUBSPOT_MARKETING_SUBSCRIPTION_ID : String := "1265988358"

/-- `v.lower()` on the scalar value (a truthy non-string would make Python
raise `AttributeError`; outside every verified property, rendered via
`str`). -/
def pyLowerVal (v : PyVal) : String :=
  match v with
  | .str s => lowerS s
  | v => pyStr v

/-- `EventSync.map_event_type`: the fixed keyword table with default
`"Other"`; the key is `csuite_type.lower() if csuite_type else ""`. -/
def map_event_type (t : PyVal) : String :=
  let key := if t.truthy then pyLowerVal t else ""
  if key = "event" then "Conference"
  else if key = "webinar" then "Webinar"
  else if key = "fundraiser" then "Charity & Causes"
  else if key = "gala" then "Charity & Causes"
  else if key = "workshop" then "Workshop"
  else if key = "meeting" then "Meeting"
  else "Other"

/-- The HubSpot marketing-event payload built by
`EventSync.build_hubspot_event` (without the unmodelled start/end
datetimes). -/
structure HEvent where
  eventName : PyVal
  eventOrganizer : String
  externalEventId : String
  eventType : String
  customProperties : Option (List (String × PyVal))
deriving DecidableEq

/-- `EventSync.build_hubspot_event`: name from
`event_description or event_name or "Unnamed Event"`, external id
`"csuite-" + str(event.get('event_date_id', event.get('event_id',
'unknown')))`, mapped event type, and `location` as a custom property when
truthy. -/
def build_hubspot_event (e : CEvent) : HEvent :=
  let event_name :=
    pyOr (pyOr (e.event_description.getD .none) (e.event_name.getD .none)) (.str "Unnamed Event")
  let idv := e.event_date_id.getD (e.event_id.getD (.str "unknown"))
  let external_id := "csuite-" ++ pyStr idv
  let base : HEvent :=
    ⟨event_name, DEFAULT_EVENT_OWNER_ID, external_id,
      map_event_type (e.event_type_code.getD (.str "")), Option.none⟩
  let location := e.location.getD .none
  if location.truthy then { base with customProperties := some [("location", location)] }
  else base

/-! ## JSON-like Python objects (used by response handling) -/

/-- A JSON-like Python value, as returned by `response.json()`. -/
inductive PyObj where
  | none
  | bool (b : Bool)
  | int (n : Int)
  | str (s : String)
  | list (xs : List PyObj)
  | dict (kvs : List (String × PyObj))

/-- Python truthiness of a JSON-like value. -/
def PyObj.truthy : PyObj → Bool
  | .none => false
  | .bool b => b
  | .int n => n != 0
  | .str s => s != ""
  | .list xs => !xs.isEmpty
  | .dict kvs => !kvs.isEmpty

/-- First value under a key of a dict's entry list. -/
def dictFind (kvs : List (String × PyObj)) (k : String) : Option PyObj :=
  (kvs.find? (fun kv => kv.1 == k)).map (fun kv => kv.2)

/-- `k in o` for a string `k`: key membership in a dict, `==`-membership in
a list (a string equals only an equal string among JSON values), substring
test in a string; `TypeError` (reported as `.error`) on other types. -/
def pyInB (k : String) (o : PyObj) : Except Unit Bool :=
  match o with
  | .dict kvs => .ok (kvs.any (fun kv => kv.1 == k))
  | .list xs => .ok (xs.any (fun x => match x with | .str s => s == k | _ => false))
  | .str s => .ok (hasInfixS k s)
  | _ => .error ()

/-- `o.get(k, d)`: `AttributeError` (reported as `.error`) on a non-dict. -/
def objGet (o : PyObj) (k : String) (d : PyObj) : Except Unit PyObj :=
  match o with
  | .dict kvs => .ok ((dictFind kvs k).getD d)
  | _ => .error ()

/-- The outcome of a HubSpot client call as seen by its caller: either the
call raised (e.g. `response.json()` failed to decode — only
`requests.exceptions.RequestException` is caught inside `_get`/`_post`) or
it returned a JSON value (including the `{"error": msg}` dict the client
builds on transport errors). -/
inductive HubResp where
  | raises
  | val (o : PyObj)

/-- `EventSync.event_exists` (src/sync/events.py lines 118-125). The Python
function returns `False` on any raising path (the bare `except Exception`),
`False` when `"error" in result`, and otherwise the value
`result.get("eventName")` — an arbitrary value whose truthiness the caller
tests; a non-dict `result` makes the `.get` raise, which is caught. -/
def event_exists (resp : HubResp) : PyObj :=
  match resp with
  | .raises => .bool false
  | .val r =>
    match pyInB "error" r with
    | .error _ => .bool false
    | .ok true => .bool false
    | .ok false =>
      match objGet r "eventName" .none with
      | .error _ => .bool false
      | .ok v => v

/-! ## The sync orchestrators (value level)

Destination-call outcomes are supplied by environment functions; the call
log records every destination (HubSpot) invocation so that dry-run write
behaviour is observable. `update_contact_by_email` performs a
search-by-email followed by a conditional property patch; it is logged as
one write-bearing call. -/

/-- A destination (HubSpot) API invocation. -/
inductive DestCall where
  | updateContact (email : String)
  | searchEvent (externalId : String)
  | createEvent (externalId : String)
  | statusRead (email : String)
  | subscribe (email : String)
deriving DecidableEq

/-- Whether the invocation performs (or may perform) a destination write:
contact patch, marketing-event create, or subscribe. -/
def DestCall.isWrite : DestCall → Bool
  | .updateContact _ => true
  | .createEvent _ => true
  | .subscribe _ => true
  | _ => false

/-- Outcome of a dict-shaped destination write call as classified by the
sync loops: success, or an `{"error": msg}` response. -/
inductive WriteResp where
  | ok
  | err (msg : String)

/-- Result tally of `EventSync.sync`. -/
structure EvResults where
  created : Nat
  skipped_exists : Nat
  skipped_archived : Nat
  skipped_past : Nat
  errors : Nat
  details : List String

/-- The initial event tally. -/
def evResults0 : EvResults := ⟨0, 0, 0, 0, 0, []⟩

/-- The environment of one event sync run: the source event list, today's
date string, and the destination behaviours. -/
structure EventEnv where
  src : List CEvent
  today : String
  search : String → HubResp
  create : HEvent → WriteResp

/-- The date string compared by the past filter (`event_date < today`): the
sync compares ISO date strings; a truthy non-string would raise in Python
(outside every verified property, rendered via `str`). -/
def dateStrVal (d : PyVal) : String :=
  match d with
  | .str s => s
  | v => pyStr v

/-- One iteration of the event loop of `EventSync.sync` (src/sync/events.py
lines 170-212): skip archived, skip past (missing dates are never "past"),
build the HubSpot event, skip if the existence probe is truthy, then create
(or in dry-run just count and record "Would create"). -/
def eventStep (env : EventEnv) (dry_run skip_archived future_only : Bool)
    (st : EvResults × List DestCall) (e : CEvent) : EvResults × List DestCall :=
  let r := st.1
  let calls := st.2
  let event_name := pyOr (e.event_description.getD .none) (e.event_name.getD (.str "Unknown"))
  let event_date := e.event_date.getD (.str "")
  if skip_archived && (e.archived.getD .none).truthy then
    ({ r with skipped_archived := r.skipped_archived + 1 }, calls)
  else if future_only && event_date.truthy && pyStrLt (dateStrVal event_date) env.today then
    ({ r with skipped_past := r.skipped_past + 1 }, calls)
  else
    let he := build_hubspot_event e
    let calls2 := calls ++ [.searchEvent he.externalEventId]
    if (event_exists (env.search he.externalEventId)).truthy then
      ({ r with skipped_exists := r.skipped_exists + 1 }, calls2)
    else if dry_run then
      ({ r with
          created := r.created + 1
          details := r.details ++ ["Would create: " ++ pyStr event_name] }, calls2)
    else
      match env.create he with
      | .err m =>
        ({ r with
            errors := r.errors + 1
            details := r.details ++ ["Error creating " ++ pyStr event_name ++ ": " ++ m] },
         calls2 ++ [.createEvent he.externalEventId])
      | .ok =>
        ({ r with
            created := r.created + 1
            details := r.details ++ ["Created: " ++ pyStr event_name] },
         calls2 ++ [.createEvent he.externalEventId])

/-- `EventSync.sync` on the successful-fetch path (src/sync/events.py lines
127-220): ONE CSuite request `get_event_dates(limit=100)` — a single page
of at most 100 events, no pagination — then the per-event loop in source
order. The signature has no `quick` parameter and the fetch limit does not
depend on `dry_run`. The fetch-failure path is modelled in the
exception-level embedding. -/
def eventSync (env : EventEnv) (dry_run skip_archived future_only : Bool) :
    EvResults × List DestCall :=
  let events := env.src.take 100
  if events.isEmpty then
    ({ evResults0 with details := ["No events found in CSuite"] }, [])
  else
    events.foldl (eventStep env dry_run skip_archived future_only) (evResults0, [])

/-- Sum of the five event tally counters: each processed event increments
exactly one of them. -/
def evTally (r : EvResults) : Nat :=
  r.created + r.skipped_exists + r.skipped_archived + r.skipped_past + r.errors

/-- The dry-run / quick fetch limits of `DonationSync.sync`
(src/sync/donations.py lines 166-168): `500 if (dry_run or quick) else
None`, for profiles and donations. -/
def donationSyncLimits (dry_run quick : Bool) : Option Nat × Option Nat :=
  (if dry_run || quick then some 500 else Option.none,
   if dry_run || quick then some 500 else Option.none)

/-- The dry-run / quick fetch limit of `NewsletterSync.sync`
(src/sync/newsletter.py lines 101-102). -/
def newsletterSyncLimit (dry_run quick : Bool) : Option Nat :=
  if dry_run || quick then some 500 else Option.none

/-- Result tally of `DonationSync.sync`. -/
structure DonResults where
  updated : Nat
  skipped_no_email : Nat
  skipped_not_found : Nat
  errors : Nat
  details : List String

/-- The initial donation tally. -/
def donResults0 : DonResults := ⟨0, 0, 0, 0, []⟩

/-- The environment of one donation sync run. The outcome of
`update_contact_by_email` is a function of the email; the property payload
(rounded strings, HubSpot date format) is not modelled — no verified
property depends on it. -/
structure DonationEnv where
  profiles : List Profile
  donations : List Donation
  update : String → WriteResp

/-- One iteration of the per-profile update loop of `DonationSync.sync`
(src/sync/donations.py lines 200-237): skip aggregates without a (truthy)
email, in dry-run count as updated without calling, otherwise call
`update_contact_by_email` and classify: "not found" errors as
`skipped_not_found`, other errors as `errors`, success as `updated`. -/
def donProcessStep (update : String → WriteResp) (dry_run : Bool)
    (emails : List (PyVal × String))
    (st : DonResults × List DestCall) (pa : PyVal × Agg) : DonResults × List DestCall :=
  let r := st.1
  let calls := st.2
  match lookupPy pa.1 emails with
  | Option.none => ({ r with skipped_no_email := r.skipped_no_email + 1 }, calls)
  | some email =>
    if email == "" then ({ r with skipped_no_email := r.skipped_no_email + 1 }, calls)
    else if dry_run then ({ r with updated := r.updated + 1 }, calls)
    else
      match update email with
      | .err m =>
        if hasInfixS "not found" (lowerS m) then
          ({ r with skipped_not_found := r.skipped_not_found + 1 },
           calls ++ [.updateContact email])
        else
          ({ r with errors := r.errors + 1 }, calls ++ [.updateContact email])
      | .ok => ({ r with updated := r.updated + 1 }, calls ++ [.updateContact email])

/-- `DonationSync.sync` (src/sync/donations.py lines 148-247) on the
well-shaped-response path: fetch the profile-email map and the donations
(both capped at 500 in dry-run or quick mode), return early with a detail
message when either is empty, aggregate, and run the per-profile update
loop. -/
def donationSync (env : DonationEnv) (dry_run quick : Bool) :
    DonResults × List DestCall :=
  let limits := donationSyncLimits dry_run quick
  let profile_emails := get_profile_emails env.profiles limits.1
  if profile_emails.isEmpty then
    ({ donResults0 with details := ["No profiles with emails found in CSuite"] }, [])
  else
    let donations := get_donations_with_limit env.donations limits.2
    if donations.isEmpty then
      ({ donResults0 with details := ["No donations found in CSuite"] }, [])
    else
      (aggregate_donations donations).foldl
        (donProcessStep env.update dry_run profile_emails) (donResults0, [])

/-- One entry of a subscription-status response. -/
structure SubStatus where
  id : Option PyVal
  status : Option PyVal

/-- A dict-shaped `get_subscription_status` response as classified by the
newsletter loop: an `{"error": ...}` dict, or a success carrying the
`subscriptionStatuses` list (absent key = empty list). -/
inductive StatusResp where
  | err (msg : String)
  | ok (subscriptionStatuses : List SubStatus)

/-- Result tally of `NewsletterSync.sync`. -/
structure NewsResults where
  subscribed : Nat
  already_subscribed : Nat
  not_found : Nat
  errors : Nat
  details : List String

/-- The initial newsletter tally. -/
def newsResults0 : NewsResults := ⟨0, 0, 0, 0, []⟩

/-- The environment of one newsletter sync run. -/
structure NewsEnv where
  profiles : List Profile
  status : String → StatusResp
  subscribe : String → WriteResp

/-- One iteration of the subscribe loop of `NewsletterSync.sync`
(src/sync/newsletter.py lines 118-156): in dry-run count as subscribed and
stop; otherwise read the status (a failed status read is NOT an error —
the subscribe is attempted anyway), skip the write when the subscription id
is already `SUBSCRIBED`, else subscribe and classify "not found" /
"does not exist" errors as `not_found`, other errors as `errors`. -/
def newsStep (statusF : String → StatusResp) (subscribeF : String → WriteResp)
    (dry_run : Bool)
    (st : NewsResults × List DestCall) (p : OptIn) : NewsResults × List DestCall :=
  let r := st.1
  let calls := st.2
  let email := p.email
  if dry_run then ({ r with subscribed := r.subscribed + 1 }, calls)
  else
    let calls2 := calls ++ [.statusRead email]
    let already :=
      match statusF email with
      | .err _ => false
      | .ok subs => subs.any (fun s =>
          pyEq (s.id.getD .none) (.str HUBSPOT_MARKETING_SUBSCRIPTION_ID)
            && pyEq (s.status.getD .none) (.str "SUBSCRIBED"))
    if already then ({ r with already_subscribed := r.already_subscribed + 1 }, calls2)
    else
      match subscribeF email with
      | .err m =>
        if hasInfixS "not found" (lowerS m) || hasInfixS "does not exist" (lowerS m) then
          ({ r with not_found := r.not_found + 1 }, calls2 ++ [.subscribe email])
        else ({ r with errors := r.errors + 1 }, calls2 ++ [.subscribe email])
      | .ok => ({ r with subscribed := r.subscribed + 1 }, calls2 ++ [.subscribe email])

/-- `NewsletterSync.sync` (src/sync/newsletter.py lines 83-164) on the
well-shaped-response path: fetch the opted-in profiles (capped at 500 in
dry-run or quick mode), return early with a detail message when empty,
else run the subscribe loop. -/
def newsletterSync (env : NewsEnv) (dry_run quick : Bool) :
    NewsResults × List DestCall :=
  let opted_in := get_opted_in_profiles env.profiles (newsletterSyncLimit dry_run quick)
  if opted_in.isEmpty then
    ({ newsResults0 with details := ["No profiles with newsletter opt-in found"] }, [])
  else
    opted_in.foldl (newsStep env.status env.subscribe dry_run) (newsResults0, [])

/-! ## Lemmas about the event sync -/

theorem eventStep_tally (env : EventEnv) (dry sa fo : Bool)
    (r : EvResults) (calls : List DestCall) (e : CEvent) :
    evTally (eventStep env dry sa fo (r, calls) e).1 = evTally r + 1 := by
  unfold eventStep
  by_cases h1 : (sa && (e.archived.getD .none).truthy) = true
  · simp [h1, evTally]
    omega
  · simp only [h1, Bool.false_eq_true, if_false]
    by_cases h2 : (fo && (e.event_date.getD (.str "")).truthy
        && pyStrLt (dateStrVal (e.event_date.getD (.str ""))) env.today) = true
    · simp [h2, evTally]
      omega
    · simp only [h2, Bool.false_eq_true, if_false]
      by_cases h3 : (event_exists
          (env.search (build_hubspot_event e).externalEventId)).truthy = true
      · simp [h3, evTally]
        omega
      · simp only [h3, Bool.false_eq_true, if_false]
        by_cases h4 : dry = true
        · simp [h4, evTally]
          omega
        · simp only [h4, Bool.false_eq_true, if_false]
          cases henv : env.create (build_hubspot_event e) <;> simp [henv, evTally] <;> omega

theorem evTally_foldl (env : EventEnv) (dry sa fo : Bool) (events : List CEvent) :
    ∀ (st : EvResults × List DestCall),
      evTally ((events.foldl (eventStep env dry sa fo) st).1)
        = evTally st.1 + events.length := by
  induction events with
  | nil => intro st; simp
  | cons e t ih =>
    intro st
    obtain ⟨r, calls⟩ := st
    simp only [List.foldl_cons, List.length_cons]
    rw [ih, eventStep_tally]
    omega

theorem eventSync_tally_min (env : EventEnv) (dry sa fo : Bool) :
    evTally (eventSync env dry sa fo).1 = min env.src.length 100 := by
  unfold eventSync
  by_cases h : (env.src.take 100).isEmpty = true
  · have h0 : env.src = [] := by
      rcases List.take_eq_nil_iff.mp (List.isEmpty_iff.mp h) with h' | h'
      · omega
      · exact h'
    simp [h, h0, evTally, evResults0]
  · simp only [h, Bool.false_eq_true, if_false]
    rw [evTally_foldl]
    simp [evTally, evResults0, List.length_take]
    omega

/-- C2 (amended): the event sync issues ONE `get_event_dates(limit=100)`
request — a single page — so it processes exactly `min(|src|, 100)` events
(each processed event bumps exactly one tally counter): a source with at
most 100 events is fully processed, a larger source is truncated to its
first 100 events. -/
theorem event_sync_fetches_single_page (env : EventEnv) (dry sa fo : Bool) :
    evTally (eventSync env dry sa fo).1 = min env.src.length 100 :=
  eventSync_tally_min env dry sa fo

/-- An event record for the pagination counterexamples: future-dated,
unarchived, uniquely identified. -/
def mkEvent (i : Nat) : CEvent :=
  ⟨some (.str ("Event " ++ natRepr i)), Option.none, some (.str "2100-01-01"),
   Option.none, Option.none, some (.int (Int.ofNat i)), Option.none,
   Option.none, Option.none⟩

/-- A source of 101 events. -/
def cexSrc101 : List CEvent := (List.range 101).map mkEvent

/-- An environment with 101 source events in which every event passes every
filter and every create succeeds. -/
def cexEnv101 : EventEnv :=
  ⟨cexSrc101, "2026-01-01",
    fun _ => .val (.dict [("error", .str "not found")]),
    fun _ => .ok⟩

/-- Counterexample to C2 as stated: over a source of 101 events the event
sync processes only 100 — the fetch is a single `limit=100` request, not a
paginated loop, so one event is never fetched. -/
theorem event_sync_misses_events_beyond_100 :
    cexSrc101.length = 101
    ∧ evTally (eventSync cexEnv101 false true true).1 = 100
    ∧ (100 : Nat) ≠ 101 := by
  refine ⟨by decide, ?_, by decide⟩
  rw [eventSync_tally_min]
  decide

/-- C4 (amended): the Donation and Newsletter orchestrators cap their
source fetch limits at exactly 500 when `dry_run` or `quick` is set; the
Event orchestrator has no `quick` parameter and its fetch is one page of at
most 100 events regardless of `dry_run` (no 500 cap). -/
theorem sync_sample_limits (dry quick : Bool) (h : (dry || quick) = true) :
    donationSyncLimits dry quick = (some 500, some 500)
    ∧ newsletterSyncLimit dry quick = some 500
    ∧ ∀ (env : EventEnv) (sa fo : Bool),
        evTally (eventSync env dry sa fo).1 = min env.src.length 100 := by
  refine ⟨?_, ?_, fun env sa fo => eventSync_tally_min env dry sa fo⟩
  · simp [donationSyncLimits, h]
  · simp [newsletterSyncLimit, h]

/-- Witness for the amended C4 at `dry_run = true`. -/
theorem sync_sample_limits_witness :
    (true || false) = true
    ∧ (donationSyncLimits true false = (some 500, some 500)
      ∧ newsletterSyncLimit true false = some 500
      ∧ ∀ (env : EventEnv) (sa fo : Bool),
          evTally (eventSync env true sa fo).1 = min env.src.length 100) :=
  ⟨by decide, sync_sample_limits true false (by decide)⟩

/-- A source of 150 events. -/
def cexSrc150 : List CEvent := (List.range 150).map mkEvent

/-- An environment with 150 source events, every filter passing and every
create succeeding. -/
def cexEnv150 : EventEnv :=
  ⟨cexSrc150, "2026-01-01",
    fun _ => .val (.dict [("error", .str "not found")]),
    fun _ => .ok⟩

/-- Counterexample to C4 as stated: `EventSync.sync` takes no `quick`
parameter, and with `dry_run=True` over 150 source events it processes
100 events — not the 150 a 500-record cap would give. -/
theorem event_sync_dry_run_not_capped_at_500 :
    cexSrc150.length = 150
    ∧ evTally (eventSync cexEnv150 true true true).1 = 100
    ∧ (100 : Nat) ≠ min 150 500 := by
  refine ⟨by decide, ?_, by decide⟩
  rw [eventSync_tally_min]
  decide

/-! ## Dry-run lemmas -/

theorem eventStep_dry_calls (env : EventEnv) (sa fo : Bool)
    (r : EvResults) (calls : List DestCall) (e : CEvent) :
    ((eventStep env true sa fo (r, calls) e).2).filter (fun c => c.isWrite)
      = calls.filter (fun c => c.isWrite) := by
  unfold eventStep
  by_cases h1 : (sa && (e.archived.getD .none).truthy) = true
  · simp [h1]
  · simp only [h1, Bool.false_eq_true, if_false]
    by_cases h2 : (fo && (e.event_date.getD (.str "")).truthy
        && pyStrLt (dateStrVal (e.event_date.getD (.str ""))) env.today) = true
    · simp [h2]
    · simp only [h2, Bool.false_eq_true, if_false]
      by_cases h3 : (event_exists
          (env.search (build_hubspot_event e).externalEventId)).truthy = true <;>
        simp [h3, List.filter_append, DestCall.isWrite]

theorem eventFold_dry_calls (env : EventEnv) (sa fo : Bool) (events : List CEvent) :
    ∀ (st : EvResults × List DestCall),
      (((events.foldl (eventStep env true sa fo) st).2).filter (fun c => c.isWrite))
        = st.2.filter (fun c => c.isWrite) := by
  induction events with
  | nil => intro st; rfl
  | cons e t ih =>
    intro st
    obtain ⟨r, calls⟩ := st
    simp only [List.foldl_cons]
    rw [ih]
    exact eventStep_dry_calls env sa fo r calls e

theorem eventSync_dry_no_writes (env : EventEnv) (sa fo : Bool) :
    ((eventSync env true sa fo).2).filter (fun c => c.isWrite) = [] := by
  unfold eventSync
  by_cases h : (env.src.take 100).isEmpty = true
  · simp [h]
  · simp only [h, Bool.false_eq_true, if_false]
    rw [eventFold_dry_calls]
    rfl

theorem eventStep_created_mono (env : EventEnv) (sa fo : Bool)
    (rL rD : EvResults) (cL cD : List DestCall) (e : CEvent)
    (h : rL.created ≤ rD.created) :
    (eventStep env false sa fo (rL, cL) e).1.created
      ≤ (eventStep env true sa fo (rD, cD) e).1.created := by
  unfold eventStep
  by_cases h1 : (sa && (e.archived.getD .none).truthy) = true
  · simpa [h1] using h
  · simp only [h1, Bool.false_eq_true, if_false]
    by_cases h2 : (fo && (e.event_date.getD (.str "")).truthy
        && pyStrLt (dateStrVal (e.event_date.getD (.str ""))) env.today) = true
    · simpa [h2] using h
    · simp only [h2, Bool.false_eq_true, if_false]
      by_cases h3 : (event_exists
          (env.search (build_hubspot_event e).externalEventId)).truthy = true
      · simpa [h3] using h
      · simp only [h3, Bool.false_eq_true, if_false]
        cases henv : env.create (build_hubspot_event e) <;> simp [henv] <;> omega

theorem eventFold_created_mono (env : EventEnv) (sa fo : Bool) (events : List CEvent) :
    ∀ (rL rD : EvResults) (cL cD : List DestCall), rL.created ≤ rD.created →
      ((events.foldl (eventStep env false sa fo) (rL, cL)).1.created
        ≤ (events.foldl (eventStep env true sa fo) (rD, cD)).1.created) := by
  induction events with
  | nil => intro rL rD cL cD h; simpa using h
  | cons e t ih =>
    intro rL rD cL cD h
    simp only [List.foldl_cons]
    have hstep := eventStep_created_mono env sa fo rL rD cL cD e h
    have h1 : eventStep env false sa fo (rL, cL) e
        = ((eventStep env false sa fo (rL, cL) e).1, (eventStep env false sa fo (rL, cL) e).2) := rfl
    have h2 : eventStep env true sa fo (rD, cD) e
        = ((eventStep env true sa fo (rD, cD) e).1, (eventStep env true sa fo (rD, cD) e).2) := rfl
    rw [h1, h2]
    exact ih _ _ _ _ hstep

theorem eventSync_created_mono (env : EventEnv) (sa fo : Bool) :
    (eventSync env false sa fo).1.created ≤ (eventSync env true sa fo).1.created := by
  unfold eventSync
  by_cases h : (env.src.take 100).isEmpty = true
  · simp [h]
  · simp only [h, Bool.false_eq_true, if_false]
    exact eventFold_created_mono env sa fo _ evResults0 evResults0 [] [] (le_refl _)

theorem donStep_dry_calls (update : String → WriteResp) (emails : List (PyVal × String))
    (r : DonResults) (calls : List DestCall) (pa : PyVal × Agg) :
    (donProcessStep update true emails (r, calls) pa).2 = calls := by
  unfold donProcessStep
  cases h : lookupPy pa.1 emails with
  | none => rfl
  | some email => by_cases he : (email == "") = true <;> simp [he]

theorem donFold_dry_calls (update : String → WriteResp) (emails : List (PyVal × String))
    (aggs : List (PyVal × Agg)) :
    ∀ (st : DonResults × List DestCall),
      (aggs.foldl (donProcessStep update true emails) st).2 = st.2 := by
  induction aggs with
  | nil => intro st; rfl
  | cons pa t ih =>
    intro st
    obtain ⟨r, calls⟩ := st
    simp only [List.foldl_cons]
    rw [ih]
    exact donStep_dry_calls update emails r calls pa

theorem donationSync_dry_no_writes (env : DonationEnv) (q : Bool) :
    ((donationSync env true q).2).filter (fun c => c.isWrite) = [] := by
  unfold donationSync
  by_cases h1 : (get_profile_emails env.profiles (donationSyncLimits true q).1).isEmpty = true
  · simp [h1]
  · simp only [h1, Bool.false_eq_true, if_false]
    by_cases h2 : (get_donations_with_limit env.donations (donationSyncLimits true q).2).isEmpty = true
    · simp [h2]
    · simp only [h2, Bool.false_eq_true, if_false]
      rw [donFold_dry_calls]
      rfl

theorem donStep_updated_mono (update : String → WriteResp) (emails : List (PyVal × String))
    (rL rD : DonResults) (cL cD : List DestCall) (pa : PyVal × Agg)
    (h : rL.updated ≤ rD.updated) :
    (donProcessStep update false emails (rL, cL) pa).1.updated
      ≤ (donProcessStep update true emails (rD, cD) pa).1.updated := by
  unfold donProcessStep
  cases hl : lookupPy pa.1 emails with
  | none => simpa using h
  | some email =>
    by_cases he : (email == "") = true
    · simpa [he] using h
    · simp only [he, Bool.false_eq_true, if_false, if_true]
      cases hu : update email with
      | ok => simp; omega
      | err m => by_cases hm : hasInfixS "not found" (lowerS m) = true <;> simp [hm] <;> omega

theorem donFold_updated_mono (update : String → WriteResp) (emails : List (PyVal × String))
    (aggs : List (PyVal × Agg)) :
    ∀ (rL rD : DonResults) (cL cD : List DestCall), rL.updated ≤ rD.updated →
      ((aggs.foldl (donProcessStep update false emails) (rL, cL)).1.updated
        ≤ (aggs.foldl (donProcessStep update true emails) (rD, cD)).1.updated) := by
  induction aggs with
  | nil => intro rL rD cL cD h; simpa using h
  | cons pa t ih =>
    intro rL rD cL cD h
    simp only [List.foldl_cons]
    have hstep := donStep_updated_mono update emails rL rD cL cD pa h
    have h1 : donProcessStep update false emails (rL, cL) pa
        = ((donProcessStep update false emails (rL, cL) pa).1,
           (donProcessStep update false emails (rL, cL) pa).2) := rfl
    have h2 : donProcessStep update true emails (rD, cD) pa
        = ((donProcessStep update true emails (rD, cD) pa).1,
           (donProcessStep update true emails (rD, cD) pa).2) := rfl
    rw [h1, h2]
    exact ih _ _ _ _ hstep

theorem newsStep_dry_calls (statusF : String → StatusResp) (subscribeF : String → WriteResp)
    (r : NewsResults) (calls : List DestCall) (p : OptIn) :
    (newsStep statusF subscribeF true (r, calls) p).2 = calls := rfl

theorem newsFold_dry_calls (statusF : String → StatusResp) (subscribeF : String → WriteResp)
    (ps : List OptIn) :
    ∀ (st : NewsResults × List DestCall),
      (ps.foldl (newsStep statusF subscribeF true) st).2 = st.2 := by
  induction ps with
  | nil => intro st; rfl
  | cons p t ih =>
    intro st
    obtain ⟨r, calls⟩ := st
    simp only [List.foldl_cons]
    rw [ih]
    rfl

theorem newsletterSync_dry_no_writes (env : NewsEnv) (q : Bool) :
    ((newsletterSync env true q).2).filter (fun c => c.isWrite) = [] := by
  unfold newsletterSync
  by_cases h : (get_opted_in_profiles env.profiles (newsletterSyncLimit true q)).isEmpty = true
  · simp [h]
  · simp only [h, Bool.false_eq_true, if_false]
    rw [newsFold_dry_calls]
    rfl

theorem newsStep_subscribed_mono (statusF : String → StatusResp)
    (subscribeF : String → WriteResp)
    (rL rD : NewsResults) (cL cD : List DestCall) (p : OptIn)
    (h : rL.subscribed ≤ rD.subscribed) :
    (newsStep statusF subscribeF false (rL, cL) p).1.subscribed
      ≤ (newsStep statusF subscribeF true (rD, cD) p).1.subscribed := by
  unfold newsStep
  simp only [if_true]
  by_cases ha : (match statusF p.email with
      | .err _ => false
      | .ok subs => subs.any (fun s =>
          pyEq (s.id.getD .none) (.str HUBSPOT_MARKETING_SUBSCRIPTION_ID)
            && pyEq (s.status.getD .none) (.str "SUBSCRIBED"))) = true
  · simp [ha]
    omega
  · simp only [ha, Bool.false_eq_true, if_false]
    cases hs : subscribeF p.email with
    | ok => simp; omega
    | err m =>
      by_cases hm : (hasInfixS "not found" (lowerS m)
          || hasInfixS "does not exist" (lowerS m)) = true <;> simp [hm] <;> omega

theorem newsFold_subscribed_mono (statusF : String → StatusResp)
    (subscribeF : String → WriteResp) (ps : List OptIn) :
    ∀ (rL rD : NewsResults) (cL cD : List DestCall), rL.subscribed ≤ rD.subscribed →
      ((ps.foldl (newsStep statusF subscribeF false) (rL, cL)).1.subscribed
        ≤ (ps.foldl (newsStep statusF subscribeF true) (rD, cD)).1.subscribed) := by
  induction ps with
  | nil => intro rL rD cL cD h; simpa using h
  | cons p t ih =>
    intro rL rD cL cD h
    simp only [List.foldl_cons]
    have hstep := newsStep_subscribed_mono statusF subscribeF rL rD cL cD p h
    have h1 : newsStep statusF subscribeF false (rL, cL) p
        = ((newsStep statusF subscribeF false (rL, cL) p).1,
           (newsStep statusF subscribeF false (rL, cL) p).2) := rfl
    have h2 : newsStep statusF subscribeF true (rD, cD) p
        = ((newsStep statusF subscribeF true (rD, cD) p).1,
           (newsStep statusF subscribeF true (rD, cD) p).2) := rfl
    rw [h1, h2]
    exact ih _ _ _ _ hstep

/-- C6: with `dry_run=True` every sync performs zero destination write
calls (no contact patch, no marketing-event create, no subscribe), and each
success counter (`updated` / `created` / `subscribed`) is at least what the
corresponding live run over the same records counts: every record a live
run counts as a success is also counted in dry-run (the existence probe of
the event sync, a read, still runs in both modes). -/
theorem dry_run_no_writes_and_counts_successes :
    (∀ (env : DonationEnv) (q : Bool),
        ((donationSync env true q).2).filter (fun c => c.isWrite) = [])
    ∧ (∀ (env : EventEnv) (sa fo : Bool),
        ((eventSync env true sa fo).2).filter (fun c => c.isWrite) = [])
    ∧ (∀ (env : NewsEnv) (q : Bool),
        ((newsletterSync env true q).2).filter (fun c => c.isWrite) = [])
    ∧ (∀ (update : String → WriteResp) (emails : List (PyVal × String))
          (aggs : List (PyVal × Agg)),
        (aggs.foldl (donProcessStep update false emails) (donResults0, [])).1.updated
          ≤ (aggs.foldl (donProcessStep update true emails) (donResults0, [])).1.updated)
    ∧ (∀ (env : EventEnv) (sa fo : Bool),
        (eventSync env false sa fo).1.created ≤ (eventSync env true sa fo).1.created)
    ∧ (∀ (statusF : String → StatusResp) (subscribeF : String → WriteResp)
          (ps : List OptIn),
        (ps.foldl (newsStep statusF subscribeF false) (newsResults0, [])).1.subscribed
          ≤ (ps.foldl (newsStep statusF subscribeF true) (newsResults0, [])).1.subscribed) :=
  ⟨donationSync_dry_no_writes, eventSync_dry_no_writes, newsletterSync_dry_no_writes,
   fun update emails aggs =>
     donFold_updated_mono update emails aggs donResults0 donResults0 [] [] (le_refl _),
   eventSync_created_mono,
   fun sF subF ps =>
     newsFold_subscribed_mono sF subF ps newsResults0 newsResults0 [] [] (le_refl _)⟩

/-! ## Lemmas about the existence probe -/

theorem event_exists_dict (kvs : List (String × PyObj)) :
    event_exists (HubResp.val (.dict kvs))
      = if kvs.any (fun kv => kv.1 == "error") then .bool false
        else (dictFind kvs "eventName").getD .none := by
  unfold event_exists pyInB objGet
  by_cases h : kvs.any (fun kv => kv.1 == "error") = true <;> simp [h]

theorem event_exists_truthy_char (resp : HubResp)
    (h : (event_exists resp).truthy = true) :
    ∃ kvs, resp = HubResp.val (.dict kvs)
      ∧ (kvs.any (fun kv => kv.1 == "error")) = false
      ∧ ((dictFind kvs "eventName").getD .none).truthy = true := by
  cases resp with
  | raises => simp [event_exists, PyObj.truthy] at h
  | val o =>
    cases o with
    | none => simp [event_exists, pyInB, PyObj.truthy] at h
    | bool b => simp [event_exists, pyInB, PyObj.truthy] at h
    | int n => simp [event_exists, pyInB, PyObj.truthy] at h
    | str s =>
      by_cases hc : hasInfixS "error" s = true <;>
        simp [event_exists, pyInB, objGet, hc, PyObj.truthy] at h
    | list xs =>
      by_cases hc : (xs.any (fun x => match x with | .str s => s == "error" | _ => false)) = true <;>
        simp [event_exists, pyInB, objGet, hc, PyObj.truthy] at h
    | dict kvs =>
      by_cases hc : (kvs.any (fun kv => kv.1 == "error")) = true
      · rw [event_exists_dict, if_pos hc] at h
        simp [PyObj.truthy] at h
      · rw [event_exists_dict, if_neg (by simp [hc])] at h
        exact ⟨kvs, rfl, Bool.eq_false_iff.mpr hc, h⟩

theorem eventStep_not_exists (env : EventEnv) (dry sa fo : Bool)
    (r : EvResults) (calls : List DestCall) (e : CEvent)
    (h1 : (sa && (e.archived.getD .none).truthy) = false)
    (h2 : (fo && (e.event_date.getD (.str "")).truthy
        && pyStrLt (dateStrVal (e.event_date.getD (.str ""))) env.today) = false)
    (h3 : (event_exists
        (env.search (build_hubspot_event e).externalEventId)).truthy = false) :
    (eventStep env dry sa fo (r, calls) e).1.skipped_exists = r.skipped_exists
    ∧ (dry = false →
        (eventStep env dry sa fo (r, calls) e).2
          = calls ++ [.searchEvent (build_hubspot_event e).externalEventId,
                      .createEvent (build_hubspot_event e).externalEventId]) := by
  unfold eventStep
  simp only [h1, h2, h3, Bool.false_eq_true, if_false]
  constructor
  · by_cases hd : dry = true
    · simp [hd]
    · simp only [hd, Bool.false_eq_true, if_false]
      cases henv : env.create (build_hubspot_event e) <;> simp [henv]
  · intro hd
    simp only [hd, Bool.false_eq_true, if_false]
    cases henv : env.create (build_hubspot_event e) <;> simp [henv]

/-- C8: a failed lookup — the client returning an `{"error": ...}` dict or
the call raising — makes `event_exists` falsy, so the sync does not count
the event as `skipped_exists` and (outside dry-run) proceeds to issue the
create call: lookup failure never blocks creation. -/
theorem event_exists_failure_permits_creation (env : EventEnv) (sa fo : Bool)
    (r : EvResults) (calls : List DestCall) (e : CEvent)
    (hfail : env.search (build_hubspot_event e).externalEventId = HubResp.raises
      ∨ ∃ kvs, env.search (build_hubspot_event e).externalEventId = HubResp.val (.dict kvs)
          ∧ (kvs.any (fun kv => kv.1 == "error")) = true)
    (h1 : (sa && (e.archived.getD .none).truthy) = false)
    (h2 : (fo && (e.event_date.getD (.str "")).truthy
        && pyStrLt (dateStrVal (e.event_date.getD (.str ""))) env.today) = false) :
    (event_exists (env.search (build_hubspot_event e).externalEventId)).truthy = false
    ∧ (eventStep env false sa fo (r, calls) e).1.skipped_exists = r.skipped_exists
    ∧ (eventStep env false sa fo (r, calls) e).2
        = calls ++ [.searchEvent (build_hubspot_event e).externalEventId,
                    .createEvent (build_hubspot_event e).externalEventId] := by
  have h3 : (event_exists
      (env.search (build_hubspot_event e).externalEventId)).truthy = false := by
    rcases hfail with hr | ⟨kvs, hv, he⟩
    · rw [hr]
      rfl
    · rw [hv, event_exists_dict, if_pos he]
      rfl
  have hstep := eventStep_not_exists env false sa fo r calls e h1 h2 h3
  exact ⟨h3, hstep.1, hstep.2 rfl⟩

/-- An event with no fields set, for the probe witnesses: not archived,
no date (so never "past"). -/
def cexBareEvent : CEvent :=
  ⟨Option.none, Option.none, Option.none, Option.none, Option.none,
   Option.none, Option.none, Option.none, Option.none⟩

/-- An environment whose existence lookup always raises and whose creates
succeed. -/
def cexRaisingEnv : EventEnv :=
  ⟨[cexBareEvent], "2026-01-01", fun _ => .raises, fun _ => .ok⟩

/-- Witness for C8 at a concrete input: a raising lookup yields a falsy
existence check and the live step issues the create call. -/
theorem event_exists_failure_permits_creation_witness :
    (cexRaisingEnv.search (build_hubspot_event cexBareEvent).externalEventId
        = HubResp.raises
      ∨ ∃ kvs, cexRaisingEnv.search (build_hubspot_event cexBareEvent).externalEventId
          = HubResp.val (.dict kvs) ∧ (kvs.any (fun kv => kv.1 == "error")) = true)
    ∧ ((event_exists (cexRaisingEnv.search
          (build_hubspot_event cexBareEvent).externalEventId)).truthy = false
      ∧ (eventStep cexRaisingEnv false true true (evResults0, []) cexBareEvent).1.skipped_exists
          = evResults0.skipped_exists
      ∧ (eventStep cexRaisingEnv false true true (evResults0, []) cexBareEvent).2
          = [] ++ [.searchEvent (build_hubspot_event cexBareEvent).externalEventId,
                   .createEvent (build_hubspot_event cexBareEvent).externalEventId]) :=
  ⟨Or.inl rfl,
    event_exists_failure_permits_creation cexRaisingEnv true true evResults0 [] cexBareEvent
      (Or.inl rfl) (by decide) (by decide)⟩

/-- C10: the existence check is truthy ONLY for a dict response without an
`"error"` key and with a truthy `eventName`; for a successful lookup whose
`eventName` is missing or empty the check is falsy, so the sync treats the
event as absent and (outside dry-run) issues a create for it. -/
theorem event_exists_requires_truthy_event_name
    (kvs : List (String × PyObj))
    (env : EventEnv) (sa fo : Bool) (r : EvResults) (calls : List DestCall) (e : CEvent)
    (hke : (kvs.any (fun kv => kv.1 == "error")) = false)
    (hname : ((dictFind kvs "eventName").getD .none).truthy = false)
    (hs : env.search (build_hubspot_event e).externalEventId = HubResp.val (.dict kvs))
    (h1 : (sa && (e.archived.getD .none).truthy) = false)
    (h2 : (fo && (e.event_date.getD (.str "")).truthy
        && pyStrLt (dateStrVal (e.event_date.getD (.str ""))) env.today) = false) :
    (∀ (resp : HubResp), (event_exists resp).truthy = true →
        ∃ kvs2, resp = HubResp.val (.dict kvs2)
          ∧ (kvs2.any (fun kv => kv.1 == "error")) = false
          ∧ ((dictFind kvs2 "eventName").getD .none).truthy = true)
    ∧ (event_exists (HubResp.val (.dict kvs))).truthy = false
    ∧ (eventStep env false sa fo (r, calls) e).1.skipped_exists = r.skipped_exists
    ∧ (eventStep env false sa fo (r, calls) e).2
        = calls ++ [.searchEvent (build_hubspot_event e).externalEventId,
                    .createEvent (build_hubspot_event e).externalEventId] := by
  have hfalsy : (event_exists (HubResp.val (.dict kvs))).truthy = false := by
    rw [event_exists_dict, if_neg (by simp [hke])]
    exact hname
  have h3 : (event_exists
      (env.search (build_hubspot_event e).externalEventId)).truthy = false := by
    rw [hs]
    exact hfalsy
  have hstep := eventStep_not_exists env false sa fo r calls e h1 h2 h3
  exact ⟨event_exists_truthy_char, hfalsy, hstep.1, hstep.2 rfl⟩

/-- A successful lookup response carrying an empty `eventName`. -/
def cexEmptyNameResp : List (String × PyObj) := [("eventName", PyObj.str "")]

/-- An environment whose existence lookup returns a successful response
with an empty `eventName`. -/
def cexEmptyNameEnv : EventEnv :=
  ⟨[cexBareEvent], "2026-01-01", fun _ => .val (.dict cexEmptyNameResp), fun _ => .ok⟩

/-- Witness for C10 at a concrete input. -/
theorem event_exists_requires_truthy_event_name_witness :
    ((cexEmptyNameResp.any (fun kv => kv.1 == "error")) = false
      ∧ ((dictFind cexEmptyNameResp "eventName").getD .none).truthy = false)
    ∧ ((event_exists (HubResp.val (.dict cexEmptyNameResp))).truthy = false
      ∧ (eventStep cexEmptyNameEnv false true true (evResults0, []) cexBareEvent).1.skipped_exists
          = evResults0.skipped_exists
      ∧ (eventStep cexEmptyNameEnv false true true (evResults0, []) cexBareEvent).2
          = [] ++ [.searchEvent (build_hubspot_event cexBareEvent).externalEventId,
                   .createEvent (build_hubspot_event cexBareEvent).externalEventId]) :=
  ⟨⟨by decide, by decide⟩,
    (event_exists_requires_truthy_event_name cexEmptyNameResp cexEmptyNameEnv true true
        evResults0 [] cexBareEvent (by decide) (by decide) rfl (by decide) (by decide)).2⟩

/-! ## Exception-level embedding (for the never-raises claim)

The orchestrators re-translated over raw JSON-like values in the `Except`
monad: every Python operation that can raise (`.get` on a non-dict,
`x[...]`, `in` on a non-container, `.lower()` on a non-string, iteration of
a non-iterable, hashing an unhashable dict key, `response.json()` decode
failures propagating out of the HTTP helpers) is modelled as `Except.error`.
Item-level raises that Python fires slightly later inside
`aggregate_donations` (the `.get` of a non-dict record, the hashing of an
unhashable truthy `profile_id`) are modelled at record-decode time, which is
observationally equivalent at the `sync()` boundary: nothing is written or
tallied in between. -/

/-- The Python exception kinds the embedding distinguishes. -/
inductive PyExc where
  | attributeError
  | typeError
  | keyError
  | indexError
  | valueError
deriving DecidableEq

/-- `o.get(k, d)`: `AttributeError` on anything but a dict. -/
def objGetE (o : PyObj) (k : String) (d : PyObj) : Except PyExc PyObj :=
  match o with
  | .dict kvs => .ok ((dictFind kvs k).getD d)
  | _ => .error .attributeError

/-- `k in o` (raising form): `TypeError` on `None`/bool/int. -/
def pyInE (k : String) (o : PyObj) : Except PyExc Bool :=
  match o with
  | .dict kvs => .ok (kvs.any (fun kv => kv.1 == k))
  | .list xs => .ok (xs.any (fun x => match x with | .str s => s == k | _ => false))
  | .str s => .ok (hasInfixS k s)
  | _ => .error .typeError

/-- `o[k]` for a string key: `KeyError` on a missing key, `TypeError` on a
non-dict. -/
def pySubscriptE (o : PyObj) (k : String) : Except PyExc PyObj :=
  match o with
  | .dict kvs =>
    match dictFind kvs k with
    | some v => .ok v
    | _ => .error .keyError
  | _ => .error .typeError

/-- `o[0]`: `IndexError` on an empty sequence, `TypeError` on a
non-sequence. -/
def pyIndex0E (o : PyObj) : Except PyExc PyObj :=
  match o with
  | .list (x :: _) => .ok x
  | .list [] => .error .indexError
  | .str s =>
    match s.data with
    | c :: _ => .ok (.str ⟨[c]⟩)
    | _ => .error .indexError
  | _ => .error .typeError

/-- `o.lower()`: `AttributeError` on a non-string. -/
def pyLowerE (o : PyObj) : Except PyExc String :=
  match o with
  | .str s => .ok (lowerS s)
  | _ => .error .attributeError

/-- `len(o)`: `TypeError` on a non-container. -/
def pyLenE (o : PyObj) : Except PyExc Nat :=
  match o with
  | .list xs => .ok xs.length
  | .str s => .ok s.data.length
  | .dict kvs => .ok kvs.length
  | _ => .error .typeError

/-- `for x in o`: a list yields its elements, a string its characters, a
dict its keys; `TypeError` otherwise. -/
def pyIterE (o : PyObj) : Except PyExc (List PyObj) :=
  match o with
  | .list xs => .ok xs
  | .str s => .ok (s.data.map (fun c => .str ⟨[c]⟩))
  | .dict kvs => .ok (kvs.map (fun kv => .str kv.1))
  | _ => .error .typeError

/-- `str(o)` on JSON-like values (container renderings abbreviated: no
verified property inspects them). -/
def pyStrObj : PyObj → String
  | .none => "None"
  | .bool b => if b then "True" else "False"
  | .int n => intRepr n
  | .str s => s
  | .list _ => "<list>"
  | .dict _ => "<dict>"

/-- A scalar used as a dict key: an unhashable (list/dict) key raises
`TypeError`. -/
def scalarOfE : PyObj → Except PyExc PyVal
  | .none => .ok .none
  | .bool b => .ok (.bool b)
  | .int n => .ok (.int n)
  | .str s => .ok (.str s)
  | _ => .error .typeError

/-- `json_response.get("success") == 1` (`True == 1` holds in Python). -/
def pyEqObjInt1 : PyObj → Bool
  | .int n => n == 1
  | .bool b => b
  | _ => false

/-- `o == s` for a string constant `s` among JSON values. -/
def pyEqObjStr (o : PyObj) (s : String) : Bool :=
  match o with
  | .str t => t == s
  | _ => false

/-- Python `a or b` on JSON-like values. -/
def pyObjOr (a b : PyObj) : PyObj := if a.truthy then a else b

/-- The transport-level outcome of one CSuite POST as seen inside
`CSuiteClient._request`: a `requests` exception, a JSON decode failure, or
a parsed JSON body. -/
inductive Transport where
  | reqError (msg : String)
  | jsonError (msg : String)
  | ok (raw : PyObj)

/-- `CSuiteClient._request` (src/clients/csuite.py lines 48-100): missing
credentials and transport/decode failures become `{"error": msg}` dicts;
a parsed body is normalized on its `success == 1` flag into
`{"success": True, "data": ..., "messages": ...}` or
`{"success": False, "error": errors[0] or "Unknown error", "errors": ...}`.
The `.get` calls on a non-dict body raise (`AttributeError`), as does
`errors[0]` on a truthy non-sequence. -/
def csuiteRequest (configured : Bool) (t : Transport) : Except PyExc PyObj :=
  if !configured then
    .ok (.dict [("error", .str "CSuite API credentials not configured")])
  else
    match t with
    | .reqError m => .ok (.dict [("error", .str m)])
    | .jsonError m => .ok (.dict [("error", .str ("Invalid JSON response: " ++ m))])
    | .ok raw => do
      let s ← objGetE raw "success" .none
      if pyEqObjInt1 s then do
        let d ← objGetE raw "data" .none
        let ms ← objGetE raw "messages" (.list [])
        pure (.dict [("success", .bool true), ("data", d), ("messages", ms)])
      else do
        let errs ← objGetE raw "errors" (.list [])
        let e0 ← (if errs.truthy then pyIndex0E errs else pure (.str "Unknown error"))
        pure (.dict [("success", .bool false), ("error", e0), ("errors", errs)])

/-- One profile record of the `get_profile_emails` page loop: read
`profile_id` and `primary_email`, and on truthy values store
`email.lower().strip()` under the (hashable) id. -/
def profRecordStepE (m : List (PyVal × String)) (p : PyObj) :
    Except PyExc (List (PyVal × String)) := do
  let pid ← objGetE p "profile_id" .none
  let em ← objGetE p "primary_email" .none
  if pid.truthy && em.truthy then do
    let emS ← pyLowerE em
    let pidV ← scalarOfE pid
    pure (assocSet m pidV (trimS emS))
  else pure m

/-- `DonationSync.get_profile_emails` over successive responses (an
exhausted response list models an unresponsive source, i.e. a request
error, on which the loop breaks). -/
def profLoopE (cfg : Bool) (limit : Option Nat) :
    List Transport → List (PyVal × String) → Nat →
    Except PyExc (List (PyVal × String))
  | [], emails, _ => .ok emails
  | t :: ts, emails, total_fetched => do
    let result ← csuiteRequest cfg t
    let s ← objGetE result "success" .none
    if !s.truthy then pure emails
    else do
      let data ← objGetE result "data" (.dict [])
      let profiles ← objGetE data "results" (.list [])
      if !profiles.truthy then pure emails
      else do
        let plen ← pyLenE profiles
        let plist ← pyIterE profiles
        let emails2 ← plist.foldlM profRecordStepE emails
        let total2 := total_fetched + plen
        if limitTruthy limit && decide (total2 ≥ limit.getD 0) then pure emails2
        else if plen < 100 then pure emails2
        else profLoopE cfg limit ts emails2 total2

/-- `DonationSync.get_donations_with_limit` over successive responses. -/
def donLoopE (cfg : Bool) (limit : Option Nat) :
    List Transport → List PyObj → Except PyExc (List PyObj)
  | [], all => .ok all
  | t :: ts, all => do
    let result ← csuiteRequest cfg t
    let s ← objGetE result "success" .none
    if !s.truthy then pure all
    else do
      let data ← objGetE result "data" (.dict [])
      let dons ← objGetE data "results" (.list [])
      if !dons.truthy then pure all
      else do
        let dlist ← pyIterE dons
        let all2 := all ++ dlist
        if limitTruthy limit && decide (all2.length ≥ limit.getD 0) then
          pure (all2.take (limit.getD 0))
        else do
          let dlen ← pyLenE dons
          if dlen < 100 then pure all2
          else donLoopE cfg limit ts all2

/-- An entry appended by `get_opted_in_profiles` (only `email` is read by
the subscribe loop; `profile_id`/`name` are stored raw). -/
structure OptInE where
  profile_id : PyObj
  email : String
  name : PyObj

/-- One profile record of the `get_opted_in_profiles` page loop. -/
def optRecordStepE (acc : List OptInE) (p : PyObj) :
    Except PyExc (List OptInE) := do
  let em ← objGetE p "primary_email" .none
  let nl ← objGetE p "newsletter" (.int 0)
  if em.truthy && pyEqObjInt1 nl then do
    let emS ← pyLowerE em
    let pid ← objGetE p "profile_id" .none
    let nm ← objGetE p "name" (.str "")
    pure (acc ++ [⟨pid, trimS emS, nm⟩])
  else pure acc

/-- `NewsletterSync.get_opted_in_profiles` over successive responses. -/
def optLoopE (cfg : Bool) (limit : Option Nat) :
    List Transport → List OptInE → Nat → Except PyExc (List OptInE)
  | [], opted, _ => .ok opted
  | t :: ts, opted, checked => do
    let result ← csuiteRequest cfg t
    let s ← objGetE result "success" .none
    if !s.truthy then pure opted
    else do
      let data ← objGetE result "data" (.dict [])
      let profiles ← objGetE data "results" (.list [])
      if !profiles.truthy then pure opted
      else do
        let plist ← pyIterE profiles
        let opted2 ← plist.foldlM optRecordStepE opted
        let plen ← pyLenE profiles
        let checked2 := checked + plen
        if limitTruthy limit && decide (checked2 ≥ limit.getD 0) then pure opted2
        else if plen < 100 then pure opted2
        else optLoopE cfg limit ts opted2 checked2

/-- Lift a HubSpot call outcome: a raising call (JSON decode failure in
`_get`/`_post`/`_patch`, which catch only `RequestException`) propagates. -/
def liftHub : HubResp → Except PyExc PyObj
  | .raises => .error .valueError
  | .val o => .ok o

/-- The HubSpot environment of the exception-level donation sync. -/
structure HubEnvE where
  searchContact : String → HubResp
  patch : String → HubResp

/-- `HubSpotClient.update_contact_by_email` (src/clients/hubspot.py lines
172-185): search by email; pass an error dict through; "Contact not found"
on an empty result list; else patch `results[0]["id"]`. -/
def update_contact_by_emailE (hub : HubEnvE) (email : String) :
    Except PyExc PyObj := do
  let sr ← liftHub (hub.searchContact email)
  let b ← pyInE "error" sr
  if b then pure sr
  else do
    let results ← objGetE sr "results" (.list [])
    if !results.truthy then
      pure (.dict [("error", .str ("Contact not found: " ++ email))])
    else do
      let r0 ← pyIndex0E results
      let cid ← pySubscriptE r0 "id"
      liftHub (hub.patch (pyStrObj cid))

/-- A string, or a falsy scalar: the `last_date` shapes on which
`format_date_for_hubspot` returns instead of raising (a falsy date returns
early; only a `str` may reach `datetime.strptime`). -/
def strOrFalsyV : PyVal → Bool
  | .str _ => true
  | v => !v.truthy

/-- Split a character list on `-` (the separators of the `%Y-%m-%d`
pattern); the second argument accumulates the current field reversed. -/
def splitDash : List Char → List Char → List (List Char)
  | [], acc => [acc.reverse]
  | c :: cs, acc =>
    if c = '-' then acc.reverse :: splitDash cs []
    else splitDash cs (c :: acc)

/-- Value of one `strptime` field: `none` unless the characters are 1 to
`w` digits (`%Y` matches up to four digits, `%m`/`%d` up to two). -/
def digitsVal (w : Nat) (l : List Char) : Option Nat :=
  if 1 ≤ l.length ∧ l.length ≤ w ∧ l.all isDigitC = true then some (natOfDigits l)
  else Option.none

/-- Days in a month of the proleptic Gregorian calendar (`datetime`'s
range check on the `%d` field). -/
def monthLen (y m : Nat) : Nat :=
  if m = 2 then
    if y % 4 = 0 ∧ (y % 100 ≠ 0 ∨ y % 400 = 0) then 29 else 28
  else if m = 4 ∨ m = 6 ∨ m = 9 ∨ m = 11 then 30
  else 31

/-- `datetime.strptime(s, "%Y-%m-%d")` as a partial parse: exactly three
dash-separated digit fields, wholly consuming the string and forming a
valid date with year at least 1. Any mismatch raises `ValueError`, which
`format_date_for_hubspot` catches, so the exact acceptance set only
selects between the two non-raising outcomes. -/
def strptimeYMD (s : String) : Option (Nat × Nat × Nat) :=
  match splitDash s.data [] with
  | [ys, ms, ds] =>
    match digitsVal 4 ys, digitsVal 2 ms, digitsVal 2 ds with
    | some y, some m, some d =>
      if 1 ≤ y ∧ 1 ≤ m ∧ m ≤ 12 ∧ 1 ≤ d ∧ d ≤ monthLen y m then some (y, m, d)
      else Option.none
    | _, _, _ => Option.none
  | _ => Option.none

/-- Zero-padded decimal of width `w` (`strftime`'s `%Y`/`%m`/`%d`). -/
def padNat (w n : Nat) : String :=
  ⟨List.replicate (w - (natRepr n).data.length) '0' ++ (natRepr n).data⟩

/-- `DonationSync.format_date_for_hubspot` (src/sync/donations.py lines
134-146) at the exception level. A falsy argument returns `None` before any
parsing. `datetime.strptime` requires a `str` first argument and raises
`TypeError` on every other type; the surrounding handler catches only
`ValueError`, so that `TypeError` escapes `sync()`. For a string, an
unparsable date raises `ValueError`, caught and mapped to `None`; a parsed
date is reformatted as midnight UTC. -/
def format_date_for_hubspot (v : PyVal) : Except PyExc (Option String) :=
  if !v.truthy then .ok Option.none
  else match v with
    | .str s =>
      match strptimeYMD s with
      | some (y, m, d) =>
        .ok (some (padNat 4 y ++ "-" ++ padNat 2 m ++ "-" ++ padNat 2 d
          ++ "T00:00:00.000Z"))
      | Option.none => .ok Option.none
    | _ => .error .typeError

/-- A record field as the scalar the decoded `Donation` retains (a
non-scalar decodes to the falsy `None`: such an amount then fails `float`
and defaults to 0, and non-scalar fields lie outside every stated
well-formedness bound anyway). -/
def scalarField : PyObj → PyVal
  | .none => .none
  | .bool b => .bool b
  | .int n => .int n
  | .str s => .str s
  | _ => .none

/-- Decode one donation record for the aggregator. The raises Python fires
inside `aggregate_donations` are modelled here: `.get` on a non-dict record
(`AttributeError`) and hashing an unhashable truthy `profile_id`
(`TypeError`); a falsy unhashable id is skipped by `if not profile_id`
before hashing and decodes to the (equally falsy) `None`. A non-scalar
amount decodes to `None`, on which `float` fails and the amount defaults
to 0, as in Python. -/
def decodeDonationE (o : PyObj) : Except PyExc Donation := do
  let pid ← objGetE o "profile_id" .none
  let amt ← objGetE o "donation_amount" (.str "0")
  let dt ← objGetE o "donation_date" (.str "")
  let pidV ← (match pid with
    | .list xs => if xs.isEmpty then pure PyVal.none else Except.error .typeError
    | .dict kvs => if kvs.isEmpty then pure PyVal.none else Except.error .typeError
    | .none => pure PyVal.none
    | .bool b => pure (PyVal.bool b)
    | .int n => pure (PyVal.int n)
    | .str s => pure (PyVal.str s))
  pure ⟨some pidV, some (scalarField amt), some (scalarField dt)⟩

/-- One aggregate of the `DonationSync.sync` update loop, exception level.
`format_date_for_hubspot(agg['last_date'])` runs for every aggregate with
an email, before the dry-run branch, and can raise; its string result
feeds only `properties['last_donation_date']`, a payload the tally does
not depend on, so it is bound and discarded. The other property fields
(`str(round(...))` on floats, `str(profile_id)` on a scalar) cannot
raise. -/
def donStepE (hub : HubEnvE) (dry : Bool) (emails : List (PyVal × String))
    (r : DonResults) (pa : PyVal × Agg) : Except PyExc DonResults := do
  match lookupPy pa.1 emails with
  | Option.none => pure { r with skipped_no_email := r.skipped_no_email + 1 }
  | some email =>
    if email == "" then pure { r with skipped_no_email := r.skipped_no_email + 1 }
    else do
      let _fd ← format_date_for_hubspot pa.2.last_date
      if dry then pure { r with updated := r.updated + 1 }
      else do
        let ur ← update_contact_by_emailE hub email
        let b ← pyInE "error" ur
        if b then do
          let emsg ← pySubscriptE ur "error"
          let low ← pyLowerE emsg
          if hasInfixS "not found" low then
            pure { r with skipped_not_found := r.skipped_not_found + 1 }
          else pure { r with errors := r.errors + 1 }
        else pure { r with updated := r.updated + 1 }

/-- `DonationSync.sync`, exception level. -/
def donationSyncE (cfg : Bool) (profResps donResps : List Transport)
    (hub : HubEnvE) (dry quick : Bool) : Except PyExc DonResults := do
  let limits := donationSyncLimits dry quick
  let profile_emails ← profLoopE cfg limits.1 profResps [] 0
  if profile_emails.isEmpty then
    pure { donResults0 with details := ["No profiles with emails found in CSuite"] }
  else do
    let donations ← donLoopE cfg limits.2 donResps []
    if donations.isEmpty then
      pure { donResults0 with details := ["No donations found in CSuite"] }
    else do
      let ds ← donations.mapM decodeDonationE
      (aggregate_donations ds).foldlM (donStepE hub dry profile_emails) donResults0

/-- `"csuite-" + str(event.get('event_date_id', event.get('event_id',
'unknown')))` (both `.get`s evaluate; the inner supplies the default of
the outer). -/
def buildExternalIdE (e : PyObj) : Except PyExc String := do
  let eid ← objGetE e "event_id" (.str "unknown")
  let idv ← objGetE e "event_date_id" eid
  pure ("csuite-" ++ pyStrObj idv)

/-- One event of the `EventSync.sync` loop, exception level. The mapped
start/end datetimes are not modelled (`format_datetime` catches its
`ValueError`s and its argument is an f-string, so it cannot raise); the
`.lower()` of a truthy `event_type_code` and the `<` comparison of a truthy
`event_date` against today's string can. -/
def eventStepE (search : String → HubResp) (create : String → HubResp)
    (today : String) (dry sa fo : Bool) (r : EvResults) (e : PyObj) :
    Except PyExc EvResults := do
  let desc ← objGetE e "event_description" .none
  let ename ← objGetE e "event_name" (.str "Unknown")
  let event_name := pyObjOr desc ename
  let event_date ← objGetE e "event_date" (.str "")
  let arch ← objGetE e "archived" .none
  if sa && arch.truthy then pure { r with skipped_archived := r.skipped_archived + 1 }
  else do
    let isPast ← (if fo && event_date.truthy then
        (match event_date with
         | .str s => pure (pyStrLt s today)
         | _ => Except.error PyExc.typeError)
      else pure false)
    if fo && event_date.truthy && isPast then
      pure { r with skipped_past := r.skipped_past + 1 }
    else do
      let extid ← buildExternalIdE e
      let etc ← objGetE e "event_type_code" (.str "")
      let _etk ← (if etc.truthy then pyLowerE etc else pure "")
      let _st ← objGetE e "start_time" .none
      let _loc ← objGetE e "location" .none
      if (event_exists (search extid)).truthy then
        pure { r with skipped_exists := r.skipped_exists + 1 }
      else if dry then
        pure { r with
          created := r.created + 1
          details := r.details ++ ["Would create: " ++ pyStrObj event_name] }
      else do
        let cres ← liftHub (create extid)
        let b ← pyInE "error" cres
        if b then do
          let emsg ← pySubscriptE cres "error"
          pure { r with
            errors := r.errors + 1
            details := r.details
              ++ ["Error creating " ++ pyStrObj event_name ++ ": " ++ pyStrObj emsg] }
        else
          pure { r with
            created := r.created + 1
            details := r.details ++ ["Created: " ++ pyStrObj event_name] }

/-- `EventSync.sync`, exception level: normalize the single
`get_event_dates(limit=100)` response; on a failure record one error plus a
detail and return; on no events record a detail; else run the loop. -/
def eventSyncE (cfg : Bool) (t : Transport) (search : String → HubResp)
    (create : String → HubResp) (today : String) (dry sa fo : Bool) :
    Except PyExc EvResults := do
  let csuite_result ← csuiteRequest cfg t
  let s ← objGetE csuite_result "success" .none
  if !s.truthy then do
    let emsg ← objGetE csuite_result "error" (.str "Unknown error")
    pure { evResults0 with
      errors := 1
      details := ["CSuite error: " ++ pyStrObj emsg] }
  else do
    let data ← objGetE csuite_result "data" (.dict [])
    let events ← objGetE data "results" (.list [])
    if !events.truthy then
      pure { evResults0 with details := ["No events found in CSuite"] }
    else do
      let elist ← pyIterE events
      elist.foldlM (eventStepE search create today dry sa fo) evResults0

/-- The HubSpot environment of the exception-level newsletter sync. -/
structure NewsHubE where
  status : String → HubResp
  subscribe : String → HubResp

/-- The short-circuiting
`any(s.get("id") == sid and s.get("status") == "SUBSCRIBED" ...)`. -/
def anySubE : List PyObj → Except PyExc Bool
  | [] => .ok false
  | s :: rest => do
    let idv ← objGetE s "id" .none
    if pyEqObjStr idv HUBSPOT_MARKETING_SUBSCRIPTION_ID then do
      let st ← objGetE s "status" .none
      if pyEqObjStr st "SUBSCRIBED" then pure true else anySubE rest
    else anySubE rest

/-- One opted-in profile of the `NewsletterSync.sync` subscribe loop,
exception level. -/
def newsStepE (hub : NewsHubE) (dry : Bool) (r : NewsResults) (p : OptInE) :
    Except PyExc NewsResults := do
  let email := p.email
  if dry then pure { r with subscribed := r.subscribed + 1 }
  else do
    let status_result ← liftHub (hub.status email)
    let berr ← pyInE "error" status_result
    let already ← (if !berr then do
        let subsO ← objGetE status_result "subscriptionStatuses" (.list [])
        let subs ← pyIterE subsO
        anySubE subs
      else pure false)
    if already then pure { r with already_subscribed := r.already_subscribed + 1 }
    else do
      let sr ← liftHub (hub.subscribe email)
      let b ← pyInE "error" sr
      if b then do
        let emsgO ← objGetE sr "error" (.str "Unknown error")
        let low ← pyLowerE emsgO
        if hasInfixS "not found" low || hasInfixS "does not exist" low then
          pure { r with not_found := r.not_found + 1 }
        else pure { r with errors := r.errors + 1 }
      else pure { r with subscribed := r.subscribed + 1 }

/-- `NewsletterSync.sync`, exception level. -/
def newsletterSyncE (cfg : Bool) (profResps : List Transport) (hub : NewsHubE)
    (dry quick : Bool) : Except PyExc NewsResults := do
  let opted ← optLoopE cfg (newsletterSyncLimit dry quick) profResps [] 0
  if opted.isEmpty then
    pure { newsResults0 with details := ["No profiles with newsletter opt-in found"] }
  else opted.foldlM (newsStepE hub dry) newsResults0

/-! ## Well-formedness of backend responses (sufficient conditions under
which the code raises nothing) -/

/-- A scalar JSON value. -/
def isScalarB : PyObj → Bool
  | .list _ => false
  | .dict _ => false
  | _ => true

/-- A record: a dict whose field values are scalars. -/
def isRecordB : PyObj → Bool
  | .dict kvs => kvs.all (fun kv => isScalarB kv.2)
  | _ => false

/-- A string, or a falsy value (the shapes on which `.lower()` is either
fine or never reached). -/
def strOrFalsyB : PyObj → Bool
  | .str _ => true
  | v => !v.truthy

/-- A well-shaped profile record: scalar fields, with a string-or-falsy
`primary_email`. -/
def WFProfileB (p : PyObj) : Bool :=
  match p with
  | .dict kvs => kvs.all (fun kv => isScalarB kv.2)
      && strOrFalsyB ((dictFind kvs "primary_email").getD .none)
  | _ => false

/-- A well-shaped donation record: scalar fields, with a string-or-falsy
`donation_date` — the same bound `WFProfileB`/`WFEventB` place on their
raising fields. A truthy non-string `donation_date` becomes an aggregate's
`last_date` and reaches `datetime.strptime` inside
`format_date_for_hubspot` (called by `sync` before the dry-run branch),
whose `TypeError` the `except ValueError` handler does not catch; among
string-dated donations of the same profile it would equally make `sorted`
raise inside `aggregate_donations`. -/
def WFDonationB (p : PyObj) : Bool :=
  match p with
  | .dict kvs => kvs.all (fun kv => isScalarB kv.2)
      && strOrFalsyB ((dictFind kvs "donation_date").getD (.str ""))
  | _ => false

/-- A well-shaped event record: scalar fields, with string-or-falsy
`event_type_code` and `event_date`. -/
def WFEventB (p : PyObj) : Bool :=
  match p with
  | .dict kvs => kvs.all (fun kv => isScalarB kv.2)
      && strOrFalsyB ((dictFind kvs "event_type_code").getD (.str ""))
      && strOrFalsyB ((dictFind kvs "event_date").getD (.str ""))
  | _ => false

/-- A well-shaped CSuite JSON body: a dict; on `success == 1` a dict `data`
whose `results` is a list of well-shaped records, otherwise a list
`errors`. -/
def WFRawB (recOK : PyObj → Bool) (raw : PyObj) : Bool :=
  match raw with
  | .dict kvs =>
    if pyEqObjInt1 ((dictFind kvs "success").getD .none) then
      match dictFind kvs "data" with
      | some (.dict dkvs) =>
        (match dictFind dkvs "results" with
         | some (.list rs) => rs.all recOK
         | _ => false)
      | _ => false
    else
      match dictFind kvs "errors" with
      | some (.list _) => true
      | _ => false
  | _ => false

/-- A well-shaped CSuite transport outcome: any failure, or a well-shaped
body. -/
def WFTransportB (recOK : PyObj → Bool) : Transport → Bool
  | .reqError _ => true
  | .jsonError _ => true
  | .ok raw => WFRawB recOK raw

/-- A dict response whose `error` value, when present, is a string. -/
def WFHubDictB : HubResp → Bool
  | .raises => false
  | .val (.dict kvs) =>
    (match dictFind kvs "error" with
     | some (.str _) => true
     | some _ => false
     | Option.none => true)
  | .val _ => false

/-- A well-shaped contact-search response: additionally its `results`,
when present and truthy, is a list of dicts carrying `id`. -/
def WFSearchContactB : HubResp → Bool
  | .raises => false
  | .val (.dict kvs) =>
    (match dictFind kvs "error" with
     | some (.str _) => true
     | some _ => false
     | Option.none => true)
    && (match dictFind kvs "results" with
        | some (.list rs) => rs.all (fun r =>
            match r with
            | .dict rk => (dictFind rk "id").isSome
            | _ => false)
        | some v => !v.truthy
        | Option.none => true)
  | .val _ => false

/-- A well-shaped subscription-status response: a dict whose
`subscriptionStatuses`, when present, is a list of dicts. -/
def WFStatusB : HubResp → Bool
  | .raises => false
  | .val (.dict kvs) =>
    (match dictFind kvs "subscriptionStatuses" with
     | some (.list ss) => ss.all (fun s => match s with | .dict _ => true | _ => false)
     | some _ => false
     | Option.none => true)
  | .val _ => false

/-- A well-shaped marketing-event create response: any dict. -/
def WFCreateB : HubResp → Bool
  | .val (.dict _) => true
  | _ => false

/-! ## No-raise lemmas -/

theorem exbind_ok {α β : Type} (a : α) (f : α → Except PyExc β) :
    ((Except.ok a : Except PyExc α) >>= f) = f a := rfl

theorem expure_eq {α : Type} (a : α) :
    (pure a : Except PyExc α) = Except.ok a := rfl

theorem foldlM_ok {α β : Type} (f : β → α → Except PyExc β) (l : List α)
    (h : ∀ a ∈ l, ∀ b, ∃ c, f b a = .ok c) :
    ∀ b0, ∃ v, l.foldlM f b0 = .ok v := by
  induction l with
  | nil => intro b0; exact ⟨b0, rfl⟩
  | cons a t ih =>
    intro b0
    obtain ⟨c, hc⟩ := h a (by simp) b0
    obtain ⟨v, hv⟩ := ih (fun x hx b => h x (by simp [hx]) b) c
    exact ⟨v, by rw [List.foldlM_cons, hc, exbind_ok, hv]⟩

theorem mapM_ok {α β : Type} (f : α → Except PyExc β) (P : β → Prop)
    (l : List α) (h : ∀ a ∈ l, ∃ b, f a = .ok b ∧ P b) :
    ∃ bs, l.mapM f = .ok bs ∧ ∀ b ∈ bs, P b := by
  induction l with
  | nil => exact ⟨[], rfl, by simp⟩
  | cons a t ih =>
    obtain ⟨b, hb, hpb⟩ := h a (by simp)
    obtain ⟨bs, hbs, hpbs⟩ := ih (fun x hx => h x (by simp [hx]))
    refine ⟨b :: bs, ?_, ?_⟩
    · rw [List.mapM_cons, hb, exbind_ok, hbs]
      rfl
    · intro x hx
      rcases List.mem_cons.mp hx with h1 | h2
      · rw [h1]
        exact hpb
      · exact hpbs x h2

theorem dictFind_mem (kvs : List (String × PyObj)) (k : String) (v : PyObj)
    (h : dictFind kvs k = some v) : (k, v) ∈ kvs := by
  unfold dictFind at h
  obtain ⟨kv, hfind, hmap⟩ := Option.map_eq_some'.mp h
  have hmem := List.mem_of_find?_eq_some hfind
  have hp := List.find?_some hfind
  have hk : kv.1 = k := by simpa using hp
  have : kv = (k, v) := by
    obtain ⟨a, b⟩ := kv
    simp at hk hmap
    simp [hk, hmap]
  exact this ▸ hmem

theorem dictFind_of_any (kvs : List (String × PyObj)) (k : String)
    (h : (kvs.any (fun kv => kv.1 == k)) = true) : ∃ v, dictFind kvs k = some v := by
  obtain ⟨kv, hm, hp⟩ := List.any_eq_true.mp h
  have : (kvs.find? (fun kv => kv.1 == k)).isSome := by
    rw [List.find?_isSome]
    exact ⟨kv, hm, hp⟩
  obtain ⟨kv2, hkv2⟩ := Option.isSome_iff_exists.mp this
  exact ⟨kv2.2, by simp [dictFind, hkv2]⟩

theorem scalarOfE_ok (v : PyObj) (h : isScalarB v = true) :
    ∃ x, scalarOfE v = .ok x := by
  cases v <;> simp [isScalarB] at h <;> exact ⟨_, rfl⟩

/-- What the page loops need from a normalized CSuite response: it is a
dict, and whenever its `success` entry is truthy, its `data` entry is a
dict whose `results` default-get is a list of well-shaped records. -/
def GoodResp (recOK : PyObj → Bool) (o : PyObj) : Prop :=
  ∃ kvs, o = .dict kvs ∧
    (((dictFind kvs "success").getD .none).truthy = true →
      ∃ dkvs rs, dictFind kvs "data" = some (.dict dkvs)
        ∧ (dictFind dkvs "results").getD (.list []) = .list rs
        ∧ rs.all recOK = true)

theorem csuiteRequest_ok_good (cfg : Bool) (recOK : PyObj → Bool) (t : Transport)
    (h : WFTransportB recOK t = true) :
    ∃ o, csuiteRequest cfg t = .ok o ∧ GoodResp recOK o := by
  by_cases hcfg : cfg = true
  · subst hcfg
    cases t with
    | reqError m =>
      refine ⟨_, rfl, [("error", .str m)], rfl, ?_⟩
      intro hs
      simp [dictFind, List.find?] at hs
      exact absurd hs (by simp [PyVal.truthy, PyObj.truthy])
    | jsonError m =>
      refine ⟨_, rfl, [("error", .str ("Invalid JSON response: " ++ m))], rfl, ?_⟩
      intro hs
      simp [dictFind, List.find?] at hs
      exact absurd hs (by simp [PyObj.truthy])
    | ok raw =>
      cases raw with
      | dict kvs =>
        simp only [WFTransportB, WFRawB] at h
        by_cases hs : pyEqObjInt1 ((dictFind kvs "success").getD .none) = true
        · rw [if_pos hs] at h
          cases hdata : dictFind kvs "data" with
          | none => rw [hdata] at h; simp at h
          | some dv =>
            cases dv with
            | dict dkvs =>
              rw [hdata] at h
              simp only at h
              cases hres : dictFind dkvs "results" with
              | none => rw [hres] at h; simp at h
              | some rv =>
                cases rv with
                | list rs =>
                  rw [hres] at h
                  simp only at h
                  have hreq : csuiteRequest true (Transport.ok (.dict kvs))
                      = .ok (.dict [("success", .bool true),
                          ("data", .dict dkvs),
                          ("messages", (dictFind kvs "messages").getD (.list []))]) := by
                    unfold csuiteRequest
                    simp only [Bool.not_true, Bool.false_eq_true, if_false, objGetE,
                      exbind_ok, hs, if_true, hdata, Option.getD_some, expure_eq]
                  refine ⟨_, hreq, _, rfl, fun _ => ⟨dkvs, rs, ?_, ?_, h⟩⟩
                  · rfl
                  · rw [hres]; rfl
                | none => rw [hres] at h; simp at h
                | bool b => rw [hres] at h; simp at h
                | int n => rw [hres] at h; simp at h
                | str s => rw [hres] at h; simp at h
                | dict d2 => rw [hres] at h; simp at h
            | none => rw [hdata] at h; simp at h
            | bool b => rw [hdata] at h; simp at h
            | int n => rw [hdata] at h; simp at h
            | str s => rw [hdata] at h; simp at h
            | list xs => rw [hdata] at h; simp at h
        · rw [if_neg hs] at h
          cases herr : dictFind kvs "errors" with
          | none => rw [herr] at h; simp at h
          | some ev =>
            cases ev with
            | list es =>
              have hreq : ∃ e0, csuiteRequest true (Transport.ok (.dict kvs))
                  = .ok (.dict [("success", .bool false), ("error", e0),
                      ("errors", .list es)]) := by
                unfold csuiteRequest
                simp only [Bool.not_true, Bool.false_eq_true, if_false, objGetE,
                  exbind_ok, hs, if_true, herr, Option.getD_some, expure_eq]
                cases es with
                | nil =>
                  refine ⟨.str "Unknown error", ?_⟩
                  simp only [PyObj.truthy, List.isEmpty_nil, Bool.not_true,
                    Bool.false_eq_true, if_false, exbind_ok, expure_eq]
                | cons e0 es' => exact ⟨e0, by simp [PyObj.truthy, pyIndex0E, exbind_ok]⟩
              obtain ⟨e0, hreq⟩ := hreq
              refine ⟨_, hreq, _, rfl, fun hssucc => absurd hssucc ?_⟩
              simp [dictFind, List.find?, PyObj.truthy]
            | none => rw [herr] at h; simp at h
            | bool b => rw [herr] at h; simp at h
            | int n => rw [herr] at h; simp at h
            | str s => rw [herr] at h; simp at h
            | dict d2 => rw [herr] at h; simp at h
      | none => simp [WFTransportB, WFRawB] at h
      | bool b => simp [WFTransportB, WFRawB] at h
      | int n => simp [WFTransportB, WFRawB] at h
      | str s => simp [WFTransportB, WFRawB] at h
      | list xs => simp [WFTransportB, WFRawB] at h
  · have hcfg2 : cfg = false := by simpa using hcfg
    subst hcfg2
    refine ⟨_, rfl, [("error", .str "CSuite API credentials not configured")], rfl, ?_⟩
    intro hs
    simp [dictFind, List.find?] at hs
    exact absurd hs (by simp [PyObj.truthy])

theorem strOrFalsy_truthy_str (v : PyObj) (h : strOrFalsyB v = true)
    (ht : v.truthy = true) : ∃ s, v = .str s := by
  cases v <;> simp_all [strOrFalsyB]

theorem getD_scalar (kvs : List (String × PyObj)) (k : String) (d : PyObj)
    (hsc : kvs.all (fun kv => isScalarB kv.2) = true) (hd : isScalarB d = true) :
    isScalarB ((dictFind kvs k).getD d) = true := by
  cases hfind : dictFind kvs k with
  | none => simpa using hd
  | some v =>
    have hmem := dictFind_mem kvs k v hfind
    have := List.all_eq_true.mp hsc (k, v) hmem
    simpa using this

theorem profRecordStepE_ok (p : PyObj) (h : WFProfileB p = true)
    (m : List (PyVal × String)) : ∃ v, profRecordStepE m p = .ok v := by
  cases p with
  | dict kvs =>
    simp only [WFProfileB, Bool.and_eq_true] at h
    obtain ⟨hsc, hem⟩ := h
    unfold profRecordStepE
    rw [show objGetE (.dict kvs) "profile_id" .none
        = .ok ((dictFind kvs "profile_id").getD .none) from rfl, exbind_ok]
    rw [show objGetE (.dict kvs) "primary_email" .none
        = .ok ((dictFind kvs "primary_email").getD .none) from rfl, exbind_ok]
    by_cases ht : (((dictFind kvs "profile_id").getD .none).truthy
        && ((dictFind kvs "primary_email").getD .none).truthy) = true
    · rw [if_pos ht]
      obtain ⟨s, hs⟩ := strOrFalsy_truthy_str _ hem (Bool.and_elim_right ht)
      rw [hs, show pyLowerE (.str s) = .ok (lowerS s) from rfl, exbind_ok]
      have hpsc : isScalarB ((dictFind kvs "profile_id").getD .none) = true :=
        getD_scalar kvs "profile_id" .none hsc rfl
      obtain ⟨x, hx⟩ := scalarOfE_ok _ hpsc
      rw [hx, exbind_ok]
      exact ⟨_, rfl⟩
    · rw [if_neg ht]
      exact ⟨m, rfl⟩
  | none => simp [WFProfileB] at h
  | bool b => simp [WFProfileB] at h
  | int n => simp [WFProfileB] at h
  | str s => simp [WFProfileB] at h
  | list xs => simp [WFProfileB] at h

theorem profLoopE_ok (cfg : Bool) (limit : Option Nat) :
    ∀ (ts : List Transport) (emails : List (PyVal × String)) (total : Nat),
      (∀ t ∈ ts, WFTransportB WFProfileB t = true) →
      ∃ v, profLoopE cfg limit ts emails total = .ok v := by
  intro ts
  induction ts with
  | nil => intro emails total _; exact ⟨emails, rfl⟩
  | cons t ts ih =>
    intro emails total h
    obtain ⟨o, ho, kvs, hok, hgood⟩ :=
      csuiteRequest_ok_good cfg WFProfileB t (h t (by simp))
    subst hok
    show ∃ v, (do
      let result ← csuiteRequest cfg t
      let s ← objGetE result "success" .none
      if !s.truthy then pure emails
      else do
        let data ← objGetE result "data" (.dict [])
        let profiles ← objGetE data "results" (.list [])
        if !profiles.truthy then pure emails
        else do
          let plen ← pyLenE profiles
          let plist ← pyIterE profiles
          let emails2 ← plist.foldlM profRecordStepE emails
          let total2 := total + plen
          if limitTruthy limit && decide (total2 ≥ limit.getD 0) then pure emails2
          else if plen < 100 then pure emails2
          else profLoopE cfg limit ts emails2 total2) = .ok v
    rw [ho, exbind_ok]
    rw [show objGetE (.dict kvs) "success" .none
        = .ok ((dictFind kvs "success").getD .none) from rfl, exbind_ok]
    by_cases hst : ((dictFind kvs "success").getD .none).truthy = true
    · obtain ⟨dkvs, rs, hdata, hres, hall⟩ := hgood hst
      simp only [hst, Bool.not_true, Bool.false_eq_true, if_false]
      rw [show objGetE (.dict kvs) "data" (.dict [])
          = .ok (.dict dkvs) from by simp [objGetE, hdata], exbind_ok]
      rw [show objGetE (.dict dkvs) "results" (.list [])
          = .ok (.list rs) from by simp [objGetE, hres], exbind_ok]
      by_cases hrs : (PyObj.list rs).truthy = true
      · simp only [hrs, Bool.not_true, Bool.false_eq_true, if_false]
        rw [show pyLenE (.list rs) = .ok rs.length from rfl, exbind_ok]
        rw [show pyIterE (.list rs) = .ok rs from rfl, exbind_ok]
        have hrec : ∀ r ∈ rs, ∀ (b : List (PyVal × String)),
            ∃ c, profRecordStepE b r = .ok c := by
          intro r hr b
          exact profRecordStepE_ok r (List.all_eq_true.mp hall r hr) b
        obtain ⟨em2, hfold⟩ := foldlM_ok profRecordStepE rs hrec emails
        rw [hfold, exbind_ok]
        by_cases hlim : (limitTruthy limit
            && decide (total + rs.length ≥ limit.getD 0)) = true
        · rw [if_pos hlim]; exact ⟨em2, rfl⟩
        · rw [if_neg hlim]
          by_cases hsh : rs.length < 100
          · rw [if_pos hsh]; exact ⟨em2, rfl⟩
          · rw [if_neg hsh]
            exact ih em2 (total + rs.length) (fun x hx => h x (by simp [hx]))
      · simp only [hrs, Bool.not_false, if_true]
        exact ⟨emails, rfl⟩
    · have hst2 : ((dictFind kvs "success").getD .none).truthy = false :=
        Bool.eq_false_iff.mpr hst
      simp only [hst2, Bool.not_false, if_true, expure_eq]
      exact ⟨emails, rfl⟩

theorem optRecordStepE_ok (p : PyObj) (h : WFProfileB p = true)
    (acc : List OptInE) : ∃ v, optRecordStepE acc p = .ok v := by
  cases p with
  | dict kvs =>
    simp only [WFProfileB, Bool.and_eq_true] at h
    obtain ⟨hsc, hem⟩ := h
    unfold optRecordStepE
    rw [show objGetE (.dict kvs) "primary_email" .none
        = .ok ((dictFind kvs "primary_email").getD .none) from rfl, exbind_ok]
    rw [show objGetE (.dict kvs) "newsletter" (.int 0)
        = .ok ((dictFind kvs "newsletter").getD (.int 0)) from rfl, exbind_ok]
    by_cases ht : (((dictFind kvs "primary_email").getD .none).truthy
        && pyEqObjInt1 ((dictFind kvs "newsletter").getD (.int 0))) = true
    · rw [if_pos ht]
      obtain ⟨s, hs⟩ := strOrFalsy_truthy_str _ hem (Bool.and_elim_left ht)
      rw [hs, show pyLowerE (.str s) = .ok (lowerS s) from rfl, exbind_ok]
      rw [show objGetE (.dict kvs) "profile_id" .none
          = .ok ((dictFind kvs "profile_id").getD .none) from rfl, exbind_ok]
      rw [show objGetE (.dict kvs) "name" (.str "")
          = .ok ((dictFind kvs "name").getD (.str "")) from rfl, exbind_ok]
      exact ⟨_, rfl⟩
    · rw [if_neg ht]
      exact ⟨acc, rfl⟩
  | none => simp [WFProfileB] at h
  | bool b => simp [WFProfileB] at h
  | int n => simp [WFProfileB] at h
  | str s => simp [WFProfileB] at h
  | list xs => simp [WFProfileB] at h

theorem optLoopE_ok (cfg : Bool) (limit : Option Nat) :
    ∀ (ts : List Transport) (opted : List OptInE) (checked : Nat),
      (∀ t ∈ ts, WFTransportB WFProfileB t = true) →
      ∃ v, optLoopE cfg limit ts opted checked = .ok v := by
  intro ts
  induction ts with
  | nil => intro opted checked _; exact ⟨opted, rfl⟩
  | cons t ts ih =>
    intro opted checked h
    obtain ⟨o, ho, kvs, hok, hgood⟩ :=
      csuiteRequest_ok_good cfg WFProfileB t (h t (by simp))
    subst hok
    show ∃ v, (do
      let result ← csuiteRequest cfg t
      let s ← objGetE result "success" .none
      if !s.truthy then pure opted
      else do
        let data ← objGetE result "data" (.dict [])
        let profiles ← objGetE data "results" (.list [])
        if !profiles.truthy then pure opted
        else do
          let plist ← pyIterE profiles
          let opted2 ← plist.foldlM optRecordStepE opted
          let plen ← pyLenE profiles
          let checked2 := checked + plen
          if limitTruthy limit && decide (checked2 ≥ limit.getD 0) then pure opted2
          else if plen < 100 then pure opted2
          else optLoopE cfg limit ts opted2 checked2) = .ok v
    rw [ho, exbind_ok]
    rw [show objGetE (.dict kvs) "success" .none
        = .ok ((dictFind kvs "success").getD .none) from rfl, exbind_ok]
    by_cases hst : ((dictFind kvs "success").getD .none).truthy = true
    · obtain ⟨dkvs, rs, hdata, hres, hall⟩ := hgood hst
      simp only [hst, Bool.not_true, Bool.false_eq_true, if_false]
      rw [show objGetE (.dict kvs) "data" (.dict [])
          = .ok (.dict dkvs) from by simp [objGetE, hdata], exbind_ok]
      rw [show objGetE (.dict dkvs) "results" (.list [])
          = .ok (.list rs) from by simp [objGetE, hres], exbind_ok]
      by_cases hrs : (PyObj.list rs).truthy = true
      · simp only [hrs, Bool.not_true, Bool.false_eq_true, if_false]
        rw [show pyIterE (.list rs) = .ok rs from rfl, exbind_ok]
        have hrec : ∀ r ∈ rs, ∀ (b : List OptInE),
            ∃ c, optRecordStepE b r = .ok c := by
          intro r hr b
          exact optRecordStepE_ok r (List.all_eq_true.mp hall r hr) b
        obtain ⟨op2, hfold⟩ := foldlM_ok optRecordStepE rs hrec opted
        rw [hfold, exbind_ok]
        rw [show pyLenE (.list rs) = .ok rs.length from rfl, exbind_ok]
        by_cases hlim : (limitTruthy limit
            && decide (checked + rs.length ≥ limit.getD 0)) = true
        · rw [if_pos hlim]; exact ⟨op2, rfl⟩
        · rw [if_neg hlim]
          by_cases hsh : rs.length < 100
          · rw [if_pos hsh]; exact ⟨op2, rfl⟩
          · rw [if_neg hsh]
            exact ih op2 (checked + rs.length) (fun x hx => h x (by simp [hx]))
      · simp only [hrs, Bool.not_false, if_true]
        exact ⟨opted, rfl⟩
    · have hst2 : ((dictFind kvs "success").getD .none).truthy = false :=
        Bool.eq_false_iff.mpr hst
      simp only [hst2, Bool.not_false, if_true, expure_eq]
      exact ⟨opted, rfl⟩

theorem donLoopE_ok (cfg : Bool) (limit : Option Nat) :
    ∀ (ts : List Transport) (all : List PyObj),
      (∀ t ∈ ts, WFTransportB WFDonationB t = true) →
      all.all WFDonationB = true →
      ∃ v, donLoopE cfg limit ts all = .ok v ∧ v.all WFDonationB = true := by
  intro ts
  induction ts with
  | nil => intro all _ hall; exact ⟨all, rfl, hall⟩
  | cons t ts ih =>
    intro all h hall
    obtain ⟨o, ho, kvs, hok, hgood⟩ :=
      csuiteRequest_ok_good cfg WFDonationB t (h t (by simp))
    subst hok
    show ∃ v, (do
      let result ← csuiteRequest cfg t
      let s ← objGetE result "success" .none
      if !s.truthy then pure all
      else do
        let data ← objGetE result "data" (.dict [])
        let dons ← objGetE data "results" (.list [])
        if !dons.truthy then pure all
        else do
          let dlist ← pyIterE dons
          let all2 := all ++ dlist
          if limitTruthy limit && decide (all2.length ≥ limit.getD 0) then
            pure (all2.take (limit.getD 0))
          else do
            let dlen ← pyLenE dons
            if dlen < 100 then pure all2
            else donLoopE cfg limit ts all2) = .ok v ∧ v.all WFDonationB = true
    rw [ho, exbind_ok]
    rw [show objGetE (.dict kvs) "success" .none
        = .ok ((dictFind kvs "success").getD .none) from rfl, exbind_ok]
    by_cases hst : ((dictFind kvs "success").getD .none).truthy = true
    · obtain ⟨dkvs, rs, hdata, hres, hallr⟩ := hgood hst
      simp only [hst, Bool.not_true, Bool.false_eq_true, if_false]
      rw [show objGetE (.dict kvs) "data" (.dict [])
          = .ok (.dict dkvs) from by simp [objGetE, hdata], exbind_ok]
      rw [show objGetE (.dict dkvs) "results" (.list [])
          = .ok (.list rs) from by simp [objGetE, hres], exbind_ok]
      by_cases hrs : (PyObj.list rs).truthy = true
      · simp only [hrs, Bool.not_true, Bool.false_eq_true, if_false]
        rw [show pyIterE (.list rs) = .ok rs from rfl, exbind_ok]
        have hall2 : (all ++ rs).all WFDonationB = true := by
          rw [List.all_append, hall, hallr]
          rfl
        by_cases hlim : (limitTruthy limit
            && decide ((all ++ rs).length ≥ limit.getD 0)) = true
        · rw [if_pos hlim]
          refine ⟨_, rfl, ?_⟩
          rw [List.all_eq_true]
          intro x hx
          exact List.all_eq_true.mp hall2 x (List.mem_of_mem_take hx)
        · rw [if_neg hlim]
          rw [show pyLenE (.list rs) = .ok rs.length from rfl, exbind_ok]
          by_cases hsh : rs.length < 100
          · rw [if_pos hsh]
            exact ⟨_, rfl, hall2⟩
          · rw [if_neg hsh]
            exact ih (all ++ rs) (fun x hx => h x (by simp [hx])) hall2
      · simp only [hrs, Bool.not_false, if_true]
        exact ⟨all, rfl, hall⟩
    · have hst2 : ((dictFind kvs "success").getD .none).truthy = false :=
        Bool.eq_false_iff.mpr hst
      simp only [hst2, Bool.not_false, if_true, expure_eq]
      exact ⟨all, rfl, hall⟩

theorem strOrFalsyV_scalarField (v : PyObj) (h : strOrFalsyB v = true) :
    strOrFalsyV (scalarField v) = true := by
  cases v <;>
    simp_all [strOrFalsyB, strOrFalsyV, scalarField, PyObj.truthy, PyVal.truthy]

theorem format_date_ok (v : PyVal) (h : strOrFalsyV v = true) :
    ∃ fd, format_date_for_hubspot v = .ok fd := by
  by_cases ht : v.truthy = true
  · obtain ⟨s, rfl⟩ : ∃ s, v = .str s := by
      cases v <;> simp_all [strOrFalsyV]
    unfold format_date_for_hubspot
    rw [ht]
    cases hp : strptimeYMD s with
    | none => exact ⟨Option.none, by simp [hp]⟩
    | some t =>
      obtain ⟨y, m, d⟩ := t
      exact ⟨some (padNat 4 y ++ "-" ++ padNat 2 m ++ "-" ++ padNat 2 d
        ++ "T00:00:00.000Z"), by simp [hp]⟩
  · have ht2 := Bool.eq_false_iff.mpr ht
    unfold format_date_for_hubspot
    rw [ht2]
    exact ⟨_, rfl⟩

theorem mem_insertDescBy {α : Type} (key : α → String) (a x : α) :
    ∀ l : List α, x ∈ insertDescBy key a l → x = a ∨ x ∈ l := by
  intro l
  induction l with
  | nil => intro h; simpa [insertDescBy] using h
  | cons b t ih =>
    intro h
    unfold insertDescBy at h
    by_cases hc : pyStrLe (key b) (key a) = true
    · rw [if_pos hc] at h
      rcases List.mem_cons.mp h with h1 | h2
      · exact Or.inl h1
      · exact Or.inr h2
    · rw [if_neg hc] at h
      rcases List.mem_cons.mp h with h1 | h2
      · exact Or.inr (by simp [h1])
      · rcases ih h2 with h3 | h4
        · exact Or.inl h3
        · exact Or.inr (by simp [h4])

theorem mem_sortDescBy {α : Type} (key : α → String) (x : α) :
    ∀ l : List α, x ∈ sortDescBy key l → x ∈ l := by
  intro l
  induction l with
  | nil => intro h; simp [sortDescBy] at h
  | cons b t ih =>
    intro h
    unfold sortDescBy at h
    rcases mem_insertDescBy key b x _ h with h1 | h2
    · simp [h1]
    · simp [ih h2]

theorem updAdd_dates (m : List (PyVal × AggW)) (k : PyVal) (a : ℚ) (dt : PyVal)
    (hm : ∀ kw ∈ m, ∀ x ∈ kw.2.donations, strOrFalsyV x.2 = true)
    (hdt : strOrFalsyV dt = true) :
    ∀ kw ∈ updAdd m k a dt, ∀ x ∈ kw.2.donations, strOrFalsyV x.2 = true := by
  induction m with
  | nil =>
    intro kw hkw x hx
    simp only [updAdd] at hkw
    rw [List.mem_singleton] at hkw
    subst hkw
    rw [show (((k, (⟨a, 1, [(a, dt)]⟩ : AggW)) : PyVal × AggW).2.donations)
        = [(a, dt)] from rfl, List.mem_singleton] at hx
    subst hx
    exact hdt
  | cons p t ih =>
    obtain ⟨k2, w⟩ := p
    intro kw hkw x hx
    unfold updAdd at hkw
    by_cases hc : pyEq k2 k = true
    · rw [if_pos hc] at hkw
      rcases List.mem_cons.mp hkw with h1 | h2
      · subst h1
        rw [show (((k2, (⟨w.total + a, w.count + 1, w.donations ++ [(a, dt)]⟩ : AggW))
            : PyVal × AggW).2.donations) = w.donations ++ [(a, dt)] from rfl] at hx
        rcases List.mem_append.mp hx with hx1 | hx2
        · exact hm (k2, w) (by simp) x hx1
        · rw [List.mem_singleton] at hx2
          subst hx2
          exact hdt
      · exact hm kw (by simp [h2]) x hx
    · rw [if_neg hc] at hkw
      rcases List.mem_cons.mp hkw with h1 | h2
      · subst h1
        exact hm (k2, w) (by simp) x hx
      · exact ih (fun kw2 hkw2 => hm kw2 (by simp [hkw2])) kw h2 x hx

theorem aggStep_dates (m : List (PyVal × AggW)) (d : Donation)
    (hm : ∀ kw ∈ m, ∀ x ∈ kw.2.donations, strOrFalsyV x.2 = true)
    (hd : strOrFalsyV (donDate d) = true) :
    ∀ kw ∈ aggStep m d, ∀ x ∈ kw.2.donations, strOrFalsyV x.2 = true := by
  have hstep : aggStep m d = (if (d.profile_id.getD .none).truthy = true
      then updAdd m (d.profile_id.getD .none) (donAmount d) (donDate d)
      else m) := rfl
  rw [hstep]
  by_cases hp : (d.profile_id.getD .none).truthy = true
  · rw [if_pos hp]
    exact updAdd_dates m _ _ _ hm hd
  · rw [if_neg hp]
    exact hm

theorem aggPass_dates (dons : List Donation)
    (hd : ∀ d ∈ dons, strOrFalsyV (donDate d) = true) :
    ∀ kw ∈ aggPass dons, ∀ x ∈ kw.2.donations, strOrFalsyV x.2 = true := by
  have key : ∀ (l : List Donation) (m : List (PyVal × AggW)),
      (∀ d ∈ l, strOrFalsyV (donDate d) = true) →
      (∀ kw ∈ m, ∀ x ∈ kw.2.donations, strOrFalsyV x.2 = true) →
      ∀ kw ∈ l.foldl aggStep m, ∀ x ∈ kw.2.donations, strOrFalsyV x.2 = true := by
    intro l
    induction l with
    | nil => intro m _ hm; simpa using hm
    | cons d t ih =>
      intro m hl hm
      rw [List.foldl_cons]
      exact ih (aggStep m d) (fun d2 hd2 => hl d2 (by simp [hd2]))
        (aggStep_dates m d hm (hl d (by simp)))
  exact key dons [] hd (by simp)

theorem aggregate_last_date (dons : List Donation)
    (hd : ∀ d ∈ dons, strOrFalsyV (donDate d) = true) :
    ∀ pa ∈ aggregate_donations dons, strOrFalsyV pa.2.last_date = true := by
  intro pa hpa
  unfold aggregate_donations at hpa
  obtain ⟨kw, hkw, hmap⟩ := List.mem_map.mp hpa
  rw [← hmap]
  have hw := aggPass_dates dons hd kw hkw
  show strOrFalsyV (finalizeAgg kw.2).last_date = true
  unfold finalizeAgg
  cases hs : sortDescBy donKey kw.2.donations with
  | nil => rfl
  | cons x rest =>
    show strOrFalsyV x.2 = true
    exact hw x (mem_sortDescBy donKey x _
      (by rw [hs]; exact List.mem_cons_self x rest))

theorem decodeDonationE_ok (o : PyObj) (h : WFDonationB o = true) :
    ∃ d, decodeDonationE o = .ok d ∧ strOrFalsyV (donDate d) = true := by
  cases o with
  | dict kvs =>
    simp only [WFDonationB, Bool.and_eq_true] at h
    obtain ⟨hsc, hdt⟩ := h
    unfold decodeDonationE
    rw [show objGetE (.dict kvs) "profile_id" .none
        = .ok ((dictFind kvs "profile_id").getD .none) from rfl, exbind_ok]
    rw [show objGetE (.dict kvs) "donation_amount" (.str "0")
        = .ok ((dictFind kvs "donation_amount").getD (.str "0")) from rfl, exbind_ok]
    rw [show objGetE (.dict kvs) "donation_date" (.str "")
        = .ok ((dictFind kvs "donation_date").getD (.str "")) from rfl, exbind_ok]
    have hpsc : isScalarB ((dictFind kvs "profile_id").getD .none) = true :=
      getD_scalar kvs "profile_id" .none hsc rfl
    cases hpid : (dictFind kvs "profile_id").getD .none with
    | list xs => rw [hpid] at hpsc; simp [isScalarB] at hpsc
    | dict d2 => rw [hpid] at hpsc; simp [isScalarB] at hpsc
    | none =>
      refine ⟨_, rfl, ?_⟩
      exact strOrFalsyV_scalarField _ hdt
    | bool b =>
      refine ⟨_, rfl, ?_⟩
      exact strOrFalsyV_scalarField _ hdt
    | int n =>
      refine ⟨_, rfl, ?_⟩
      exact strOrFalsyV_scalarField _ hdt
    | str s =>
      refine ⟨_, rfl, ?_⟩
      exact strOrFalsyV_scalarField _ hdt
  | none => simp [WFDonationB] at h
  | bool b => simp [WFDonationB] at h
  | int n => simp [WFDonationB] at h
  | str s => simp [WFDonationB] at h
  | list xs => simp [WFDonationB] at h

/-- A dict whose `error` value, when present, is a string. -/
def GoodErrDict (o : PyObj) : Prop :=
  ∃ kvs, o = .dict kvs ∧ ∀ v, dictFind kvs "error" = some v → ∃ s, v = .str s

theorem update_contact_by_emailE_ok (hub : HubEnvE) (email : String)
    (hs : WFSearchContactB (hub.searchContact email) = true)
    (hp : ∀ c, WFHubDictB (hub.patch c) = true) :
    ∃ ur, update_contact_by_emailE hub email = .ok ur ∧ GoodErrDict ur := by
  unfold update_contact_by_emailE
  cases hse : hub.searchContact email with
  | raises => rw [hse] at hs; simp [WFSearchContactB] at hs
  | val o =>
    rw [hse] at hs
    cases o with
    | dict kvs =>
      simp only [WFSearchContactB, Bool.and_eq_true] at hs
      obtain ⟨herr, hres⟩ := hs
      rw [show liftHub (HubResp.val (.dict kvs)) = .ok (.dict kvs) from rfl,
        exbind_ok]
      rw [show pyInE "error" (.dict kvs)
          = .ok (kvs.any (fun kv => kv.1 == "error")) from rfl, exbind_ok]
      by_cases hb : (kvs.any (fun kv => kv.1 == "error")) = true
      · rw [if_pos hb]
        refine ⟨_, rfl, kvs, rfl, ?_⟩
        intro v hv
        rw [hv] at herr
        cases v <;> simp at herr <;> exact ⟨_, rfl⟩
      · rw [if_neg hb]
        rw [show objGetE (.dict kvs) "results" (.list [])
            = .ok ((dictFind kvs "results").getD (.list [])) from rfl, exbind_ok]
        by_cases ht : ((dictFind kvs "results").getD (.list [])).truthy = true
        · simp only [ht, Bool.not_true, Bool.false_eq_true, if_false]
          cases hfind : dictFind kvs "results" with
          | none =>
            rw [hfind] at ht
            simp [PyObj.truthy] at ht
          | some rv =>
            rw [hfind] at ht hres
            simp only [Option.getD_some] at ht
            try simp only [Option.getD_some]
            cases rv with
            | list rl =>
              cases rl with
              | nil => simp [PyObj.truthy] at ht
              | cons r0 rrest =>
                rw [show pyIndex0E (.list (r0 :: rrest)) = .ok r0 from rfl, exbind_ok]
                simp only at hres
                have hr0 := List.all_eq_true.mp hres r0 (by simp)
                cases r0 with
                | dict rk =>
                  simp only at hr0
                  obtain ⟨idv, hidv⟩ := Option.isSome_iff_exists.mp hr0
                  rw [show pySubscriptE (.dict rk) "id" = .ok idv from by
                    simp [pySubscriptE, hidv], exbind_ok]
                  have hpd := hp (pyStrObj idv)
                  cases hpc : hub.patch (pyStrObj idv) with
                  | raises => rw [hpc] at hpd; simp [WFHubDictB] at hpd
                  | val po =>
                    rw [hpc] at hpd
                    cases po with
                    | dict pkvs =>
                      refine ⟨_, rfl, pkvs, rfl, ?_⟩
                      intro v hv
                      simp only [WFHubDictB] at hpd
                      rw [hv] at hpd
                      cases v <;> simp at hpd <;> exact ⟨_, rfl⟩
                    | none => simp [WFHubDictB] at hpd
                    | bool b => simp [WFHubDictB] at hpd
                    | int n => simp [WFHubDictB] at hpd
                    | str s => simp [WFHubDictB] at hpd
                    | list xs => simp [WFHubDictB] at hpd
                | none => simp at hr0
                | bool b => simp at hr0
                | int n => simp at hr0
                | str s => simp at hr0
                | list xs => simp at hr0
            | none => simp [PyObj.truthy] at ht
            | bool b => simp [ht] at hres
            | int n => simp [ht] at hres
            | str s => simp [ht] at hres
            | dict d2 => simp [ht] at hres
        · have ht2 := Bool.eq_false_iff.mpr ht
          simp only [ht2, Bool.not_false, if_true, expure_eq]
          refine ⟨_, rfl, _, rfl, ?_⟩
          intro v hv
          simp [dictFind, List.find?] at hv
          exact ⟨_, hv.symm⟩
    | none => simp [WFSearchContactB] at hs
    | bool b => simp [WFSearchContactB] at hs
    | int n => simp [WFSearchContactB] at hs
    | str s => simp [WFSearchContactB] at hs
    | list xs => simp [WFSearchContactB] at hs

theorem donStepE_ok (hub : HubEnvE) (dry : Bool) (emails : List (PyVal × String))
    (hse : ∀ e, WFSearchContactB (hub.searchContact e) = true)
    (hpa : ∀ c, WFHubDictB (hub.patch c) = true)
    (pa : PyVal × Agg) (r : DonResults)
    (hld : strOrFalsyV pa.2.last_date = true) :
    ∃ c, donStepE hub dry emails r pa = .ok c := by
  unfold donStepE
  cases hl : lookupPy pa.1 emails with
  | none => exact ⟨_, rfl⟩
  | some email =>
    simp only
    by_cases he : (email == "") = true
    · rw [if_pos he]
      exact ⟨_, rfl⟩
    · rw [if_neg he]
      obtain ⟨fd, hfd⟩ := format_date_ok pa.2.last_date hld
      rw [hfd, exbind_ok]
      by_cases hd : dry = true
      · rw [if_pos hd]
        exact ⟨_, rfl⟩
      · rw [if_neg hd]
        obtain ⟨ur, hur, ukvs, hukvs, hustr⟩ :=
          update_contact_by_emailE_ok hub email (hse email) hpa
        subst hukvs
        rw [hur, exbind_ok]
        rw [show pyInE "error" (.dict ukvs)
            = .ok (ukvs.any (fun kv => kv.1 == "error")) from rfl, exbind_ok]
        by_cases hb : (ukvs.any (fun kv => kv.1 == "error")) = true
        · rw [if_pos hb]
          obtain ⟨v, hv⟩ := dictFind_of_any ukvs "error" hb
          rw [show pySubscriptE (.dict ukvs) "error" = .ok v from by
            simp [pySubscriptE, hv], exbind_ok]
          obtain ⟨s, hsv⟩ := hustr v hv
          subst hsv
          rw [show pyLowerE (.str s) = .ok (lowerS s) from rfl, exbind_ok]
          by_cases hnf : hasInfixS "not found" (lowerS s) = true
          · rw [if_pos hnf]; exact ⟨_, rfl⟩
          · rw [if_neg hnf]; exact ⟨_, rfl⟩
        · rw [if_neg hb]
          exact ⟨_, rfl⟩

theorem donationSyncE_ok (cfg : Bool) (profResps donResps : List Transport)
    (hub : HubEnvE) (dry quick : Bool)
    (hprof : ∀ t ∈ profResps, WFTransportB WFProfileB t = true)
    (hdon : ∀ t ∈ donResps, WFTransportB WFDonationB t = true)
    (hse : ∀ e, WFSearchContactB (hub.searchContact e) = true)
    (hpa : ∀ c, WFHubDictB (hub.patch c) = true) :
    ∃ r, donationSyncE cfg profResps donResps hub dry quick = .ok r := by
  unfold donationSyncE
  simp only
  obtain ⟨emails, hemails⟩ :=
    profLoopE_ok cfg (donationSyncLimits dry quick).1 profResps [] 0 hprof
  rw [hemails, exbind_ok]
  by_cases hpe : emails.isEmpty = true
  · rw [if_pos hpe]
    exact ⟨_, rfl⟩
  · rw [if_neg hpe]
    obtain ⟨dons, hdons, hwf⟩ :=
      donLoopE_ok cfg (donationSyncLimits dry quick).2 donResps [] hdon rfl
    rw [hdons, exbind_ok]
    by_cases hde : dons.isEmpty = true
    · rw [if_pos hde]
      exact ⟨_, rfl⟩
    · rw [if_neg hde]
      obtain ⟨ds, hds, hdd⟩ := mapM_ok decodeDonationE
        (fun d => strOrFalsyV (donDate d) = true) dons
        (fun o ho => decodeDonationE_ok o (List.all_eq_true.mp hwf o ho))
      rw [hds, exbind_ok]
      exact foldlM_ok (donStepE hub dry emails) (aggregate_donations ds)
        (fun pa2 hmem r => donStepE_ok hub dry emails hse hpa pa2 r
          (aggregate_last_date ds hdd pa2 hmem)) donResults0

theorem eventStepE_ok (search : String → HubResp) (create : String → HubResp)
    (today : String) (dry sa fo : Bool)
    (hcr : ∀ x, WFCreateB (create x) = true)
    (e : PyObj) (he : WFEventB e = true) (r : EvResults) :
    ∃ c, eventStepE search create today dry sa fo r e = .ok c := by
  cases e with
  | dict kvs =>
    simp only [WFEventB, Bool.and_eq_true] at he
    obtain ⟨⟨hsc, hetc⟩, hdt⟩ := he
    unfold eventStepE
    rw [show objGetE (.dict kvs) "event_description" .none
        = .ok ((dictFind kvs "event_description").getD .none) from rfl, exbind_ok]
    rw [show objGetE (.dict kvs) "event_name" (.str "Unknown")
        = .ok ((dictFind kvs "event_name").getD (.str "Unknown")) from rfl, exbind_ok]
    rw [show objGetE (.dict kvs) "event_date" (.str "")
        = .ok ((dictFind kvs "event_date").getD (.str "")) from rfl, exbind_ok]
    rw [show objGetE (.dict kvs) "archived" .none
        = .ok ((dictFind kvs "archived").getD .none) from rfl, exbind_ok]
    by_cases ha : (sa && ((dictFind kvs "archived").getD .none).truthy) = true
    · rw [if_pos ha]
      exact ⟨_, rfl⟩
    · rw [if_neg ha]
      have hpast : ∃ b, (if fo && ((dictFind kvs "event_date").getD (.str "")).truthy then
          (match (dictFind kvs "event_date").getD (.str "") with
           | .str s => pure (pyStrLt s today)
           | _ => Except.error PyExc.typeError)
          else pure false : Except PyExc Bool) = .ok b := by
        by_cases hfo : (fo && ((dictFind kvs "event_date").getD (.str "")).truthy) = true
        · rw [if_pos hfo]
          obtain ⟨s, hs⟩ := strOrFalsy_truthy_str _ hdt (Bool.and_elim_right hfo)
          rw [hs]
          exact ⟨_, rfl⟩
        · rw [if_neg hfo]
          exact ⟨false, rfl⟩
      obtain ⟨pb, hpb⟩ := hpast
      rw [hpb, exbind_ok]
      by_cases hp : (fo && ((dictFind kvs "event_date").getD (.str "")).truthy && pb) = true
      · rw [if_pos hp]
        exact ⟨_, rfl⟩
      · rw [if_neg hp]
        rw [show buildExternalIdE (.dict kvs)
            = .ok ("csuite-" ++ pyStrObj ((dictFind kvs "event_date_id").getD
                ((dictFind kvs "event_id").getD (.str "unknown")))) from rfl, exbind_ok]
        rw [show objGetE (.dict kvs) "event_type_code" (.str "")
            = .ok ((dictFind kvs "event_type_code").getD (.str "")) from rfl, exbind_ok]
        have hlower : ∃ k, (if ((dictFind kvs "event_type_code").getD (.str "")).truthy then
            pyLowerE ((dictFind kvs "event_type_code").getD (.str ""))
            else pure "" : Except PyExc String) = .ok k := by
          by_cases htc : ((dictFind kvs "event_type_code").getD (.str "")).truthy = true
          · rw [if_pos htc]
            obtain ⟨s, hs⟩ := strOrFalsy_truthy_str _ hetc htc
            rw [hs]
            exact ⟨_, rfl⟩
          · rw [if_neg (by simp [htc])]
            exact ⟨"", rfl⟩
        obtain ⟨lk, hlk⟩ := hlower
        rw [hlk, exbind_ok]
        rw [show objGetE (.dict kvs) "start_time" .none
            = .ok ((dictFind kvs "start_time").getD .none) from rfl, exbind_ok]
        rw [show objGetE (.dict kvs) "location" .none
            = .ok ((dictFind kvs "location").getD .none) from rfl, exbind_ok]
        by_cases hex : (event_exists (search ("csuite-" ++ pyStrObj
            ((dictFind kvs "event_date_id").getD
              ((dictFind kvs "event_id").getD (.str "unknown")))))).truthy = true
        · rw [if_pos hex]
          exact ⟨_, rfl⟩
        · rw [if_neg hex]
          by_cases hd : dry = true
          · rw [if_pos hd]
            exact ⟨_, rfl⟩
          · rw [if_neg hd]
            have hc := hcr ("csuite-" ++ pyStrObj ((dictFind kvs "event_date_id").getD
                ((dictFind kvs "event_id").getD (.str "unknown"))))
            cases hcc : create ("csuite-" ++ pyStrObj ((dictFind kvs "event_date_id").getD
                ((dictFind kvs "event_id").getD (.str "unknown")))) with
            | raises => rw [hcc] at hc; simp [WFCreateB] at hc
            | val co =>
              rw [hcc] at hc
              cases co with
              | dict ckvs =>
                rw [show liftHub (HubResp.val (.dict ckvs))
                    = .ok (.dict ckvs) from rfl, exbind_ok]
                rw [show pyInE "error" (.dict ckvs)
                    = .ok (ckvs.any (fun kv => kv.1 == "error")) from rfl, exbind_ok]
                by_cases hb : (ckvs.any (fun kv => kv.1 == "error")) = true
                · rw [if_pos hb]
                  obtain ⟨v, hv⟩ := dictFind_of_any ckvs "error" hb
                  rw [show pySubscriptE (.dict ckvs) "error" = .ok v from by
                    simp [pySubscriptE, hv], exbind_ok]
                  exact ⟨_, rfl⟩
                · rw [if_neg hb]
                  exact ⟨_, rfl⟩
              | none => simp [WFCreateB] at hc
              | bool b => simp [WFCreateB] at hc
              | int n => simp [WFCreateB] at hc
              | str s => simp [WFCreateB] at hc
              | list xs => simp [WFCreateB] at hc
  | none => simp [WFEventB] at he
  | bool b => simp [WFEventB] at he
  | int n => simp [WFEventB] at he
  | str s => simp [WFEventB] at he
  | list xs => simp [WFEventB] at he

theorem eventSyncE_ok (cfg : Bool) (t : Transport) (search : String → HubResp)
    (create : String → HubResp) (today : String) (dry sa fo : Bool)
    (ht : WFTransportB WFEventB t = true)
    (hcr : ∀ x, WFCreateB (create x) = true) :
    ∃ r, eventSyncE cfg t search create today dry sa fo = .ok r := by
  unfold eventSyncE
  obtain ⟨o, ho, kvs, hok, hgood⟩ := csuiteRequest_ok_good cfg WFEventB t ht
  subst hok
  rw [ho, exbind_ok]
  rw [show objGetE (.dict kvs) "success" .none
      = .ok ((dictFind kvs "success").getD .none) from rfl, exbind_ok]
  by_cases hst : ((dictFind kvs "success").getD .none).truthy = true
  · obtain ⟨dkvs, rs, hdata, hres, hall⟩ := hgood hst
    simp only [hst, Bool.not_true, Bool.false_eq_true, if_false]
    rw [show objGetE (.dict kvs) "data" (.dict [])
        = .ok (.dict dkvs) from by simp [objGetE, hdata], exbind_ok]
    rw [show objGetE (.dict dkvs) "results" (.list [])
        = .ok (.list rs) from by simp [objGetE, hres], exbind_ok]
    by_cases hrs : (PyObj.list rs).truthy = true
    · simp only [hrs, Bool.not_true, Bool.false_eq_true, if_false]
      rw [show pyIterE (.list rs) = .ok rs from rfl, exbind_ok]
      exact foldlM_ok (eventStepE search create today dry sa fo) rs
        (fun e he r => eventStepE_ok search create today dry sa fo hcr e
          (List.all_eq_true.mp hall e he) r) evResults0
    · simp only [hrs, Bool.not_false, if_true, expure_eq]
      exact ⟨_, rfl⟩
  · have hst2 : ((dictFind kvs "success").getD .none).truthy = false :=
      Bool.eq_false_iff.mpr hst
    simp only [hst2, Bool.not_false, if_true]
    rw [show objGetE (.dict kvs) "error" (.str "Unknown error")
        = .ok ((dictFind kvs "error").getD (.str "Unknown error")) from rfl, exbind_ok]
    exact ⟨_, rfl⟩

theorem anySubE_ok (ss : List PyObj)
    (h : ss.all (fun s => match s with | .dict _ => true | _ => false) = true) :
    ∃ b, anySubE ss = .ok b := by
  induction ss with
  | nil => exact ⟨false, rfl⟩
  | cons s rest ih =>
    have hs := List.all_eq_true.mp h s (by simp)
    have hrest : rest.all (fun s => match s with | .dict _ => true | _ => false) = true := by
      rw [List.all_eq_true]
      intro x hx
      exact List.all_eq_true.mp h x (by simp [hx])
    cases s with
    | dict skvs =>
      unfold anySubE
      rw [show objGetE (.dict skvs) "id" .none
          = .ok ((dictFind skvs "id").getD .none) from rfl, exbind_ok]
      by_cases hid : pyEqObjStr ((dictFind skvs "id").getD .none)
          HUBSPOT_MARKETING_SUBSCRIPTION_ID = true
      · rw [if_pos hid]
        rw [show objGetE (.dict skvs) "status" .none
            = .ok ((dictFind skvs "status").getD .none) from rfl, exbind_ok]
        by_cases hsub : pyEqObjStr ((dictFind skvs "status").getD .none)
            "SUBSCRIBED" = true
        · rw [if_pos hsub]
          exact ⟨true, rfl⟩
        · rw [if_neg hsub]
          exact ih hrest
      · rw [if_neg hid]
        exact ih hrest
    | none => simp at hs
    | bool b => simp at hs
    | int n => simp at hs
    | str s2 => simp at hs
    | list xs => simp at hs

theorem newsStepE_ok (hub : NewsHubE) (dry : Bool)
    (hst : ∀ e, WFStatusB (hub.status e) = true)
    (hsb : ∀ e, WFHubDictB (hub.subscribe e) = true)
    (p : OptInE) (r : NewsResults) :
    ∃ c, newsStepE hub dry r p = .ok c := by
  unfold newsStepE
  by_cases hd : dry = true
  · rw [if_pos hd]
    exact ⟨_, rfl⟩
  · rw [if_neg hd]
    have hstp := hst p.email
    cases hsr : hub.status p.email with
    | raises => rw [hsr] at hstp; simp [WFStatusB] at hstp
    | val so =>
      rw [hsr] at hstp
      cases so with
      | dict skvs =>
        rw [show liftHub (HubResp.val (.dict skvs)) = .ok (.dict skvs) from rfl,
          exbind_ok]
        rw [show pyInE "error" (.dict skvs)
            = .ok (skvs.any (fun kv => kv.1 == "error")) from rfl, exbind_ok]
        have halready : ∃ b, (if !(skvs.any (fun kv => kv.1 == "error")) then do
            let subsO ← objGetE (.dict skvs) "subscriptionStatuses" (.list [])
            let subs ← pyIterE subsO
            anySubE subs
          else pure false : Except PyExc Bool) = .ok b := by
          by_cases hberr : (skvs.any (fun kv => kv.1 == "error")) = true
          · rw [if_neg (by simp [hberr])]
            exact ⟨false, rfl⟩
          · rw [if_pos (by simp [Bool.eq_false_iff.mpr hberr])]
            rw [show objGetE (.dict skvs) "subscriptionStatuses" (.list [])
                = .ok ((dictFind skvs "subscriptionStatuses").getD (.list []))
              from rfl, exbind_ok]
            simp only [WFStatusB] at hstp
            cases hfind : dictFind skvs "subscriptionStatuses" with
            | none => exact ⟨false, rfl⟩
            | some sv =>
              rw [hfind] at hstp
              cases sv with
              | list ss =>
                simp only [Option.getD_some]
                rw [show pyIterE (.list ss) = .ok ss from rfl, exbind_ok]
                simp only at hstp
                exact anySubE_ok ss hstp
              | none => simp at hstp
              | bool b => simp at hstp
              | int n => simp at hstp
              | str s => simp at hstp
              | dict d2 => simp at hstp
        obtain ⟨ab, hab⟩ := halready
        rw [hab, exbind_ok]
        by_cases ha : ab = true
        · rw [if_pos ha]
          exact ⟨_, rfl⟩
        · rw [if_neg ha]
          have hsbp := hsb p.email
          cases hsc : hub.subscribe p.email with
          | raises => rw [hsc] at hsbp; simp [WFHubDictB] at hsbp
          | val sbo =>
            rw [hsc] at hsbp
            cases sbo with
            | dict bkvs =>
              rw [show liftHub (HubResp.val (.dict bkvs))
                  = .ok (.dict bkvs) from rfl, exbind_ok]
              rw [show pyInE "error" (.dict bkvs)
                  = .ok (bkvs.any (fun kv => kv.1 == "error")) from rfl, exbind_ok]
              by_cases hb : (bkvs.any (fun kv => kv.1 == "error")) = true
              · rw [if_pos hb]
                rw [show objGetE (.dict bkvs) "error" (.str "Unknown error")
                    = .ok ((dictFind bkvs "error").getD (.str "Unknown error"))
                  from rfl, exbind_ok]
                obtain ⟨v, hv⟩ := dictFind_of_any bkvs "error" hb
                simp only [WFHubDictB] at hsbp
                rw [hv] at hsbp ⊢
                simp only [Option.getD_some]
                cases v with
                | str vs =>
                  rw [show pyLowerE (.str vs) = .ok (lowerS vs) from rfl, exbind_ok]
                  by_cases hnf : (hasInfixS "not found" (lowerS vs)
                      || hasInfixS "does not exist" (lowerS vs)) = true
                  · rw [if_pos hnf]
                    exact ⟨_, rfl⟩
                  · rw [if_neg hnf]
                    exact ⟨_, rfl⟩
                | none => simp at hsbp
                | bool b2 => simp at hsbp
                | int n => simp at hsbp
                | list xs => simp at hsbp
                | dict d2 => simp at hsbp
              · rw [if_neg hb]
                exact ⟨_, rfl⟩
            | none => simp [WFHubDictB] at hsbp
            | bool b2 => simp [WFHubDictB] at hsbp
            | int n => simp [WFHubDictB] at hsbp
            | str s => simp [WFHubDictB] at hsbp
            | list xs => simp [WFHubDictB] at hsbp
      | none => simp [WFStatusB] at hstp
      | bool b => simp [WFStatusB] at hstp
      | int n => simp [WFStatusB] at hstp
      | str s => simp [WFStatusB] at hstp
      | list xs => simp [WFStatusB] at hstp

theorem newsletterSyncE_ok (cfg : Bool) (profResps : List Transport)
    (hub : NewsHubE) (dry quick : Bool)
    (hprof : ∀ t ∈ profResps, WFTransportB WFProfileB t = true)
    (hst : ∀ e, WFStatusB (hub.status e) = true)
    (hsb : ∀ e, WFHubDictB (hub.subscribe e) = true) :
    ∃ r, newsletterSyncE cfg profResps hub dry quick = .ok r := by
  unfold newsletterSyncE
  obtain ⟨opted, hopted⟩ :=
    optLoopE_ok cfg (newsletterSyncLimit dry quick) profResps [] 0 hprof
  rw [hopted, exbind_ok]
  by_cases hoe : opted.isEmpty = true
  · rw [if_pos hoe]
    exact ⟨_, rfl⟩
  · rw [if_neg hoe]
    exact foldlM_ok (newsStepE hub dry) opted
      (fun p _ r => newsStepE_ok hub dry hst hsb p r) newsResults0

/-- Hub environment returning empty dicts, for the raise counterexample. -/
def cexHubE : HubEnvE := ⟨fun _ => .val (.dict []), fun _ => .val (.dict [])⟩

/-- Counterexample to C7 as stated: a syntactically valid JSON response
`{"success": 1}` — a dict merely MISSING its `data` key — makes
`DonationSync.sync` raise `AttributeError` past its boundary: the
normalizer stores `data = None` and the fetch loop calls
`None.get("results", [])`. -/
theorem donation_sync_raises_attribute_error :
    donationSyncE true [Transport.ok (.dict [("success", .int 1)])] [] cexHubE
        false false
      = Except.error PyExc.attributeError := rfl

theorem donationSyncE_total_failure (cfg : Bool) (donResps : List Transport)
    (hub : HubEnvE) (dry quick : Bool) (m : String) :
    donationSyncE cfg [Transport.reqError m] donResps hub dry quick
      = .ok { donResults0 with
          details := ["No profiles with emails found in CSuite"] } := by
  cases cfg <;> rfl

theorem eventSyncE_total_failure (search create : String → HubResp)
    (today : String) (dry sa fo : Bool) (m : String) :
    eventSyncE true (Transport.reqError m) search create today dry sa fo
      = .ok { evResults0 with
          errors := 1
          details := ["CSuite error: " ++ m] } := rfl

theorem newsletterSyncE_total_failure (cfg : Bool) (hub : NewsHubE)
    (dry quick : Bool) (m : String) :
    newsletterSyncE cfg [Transport.reqError m] hub dry quick
      = .ok { newsResults0 with
          details := ["No profiles with newsletter opt-in found"] } := by
  cases cfg <;> rfl

/-- C7 (amended): each orchestrator's `sync()` returns its results tally —
never raising — for every environment whose backend responses are
well-shaped (dict-shaped bodies with the expected container and field
types: `data` a dict, `results` a list of scalar-field record dicts,
`errors` a list, HubSpot responses dicts with string `error` values, and —
on the fields each sync lowercases, compares or date-parses — string or
falsy values: `primary_email`, `event_type_code`, `event_date`, and
`donation_date`, the last because a truthy non-string date reaches
`datetime.strptime` in `format_date_for_hubspot` and raises a `TypeError`
the `except ValueError` handler misses); fetch failures at any page,
`success = 0` responses and write-call errors are all tolerated. In total
failure of the first fetch the caller still receives a tally with zero
success counters plus a detail message (the event sync additionally counts
one error). A response outside these shapes — e.g. a success body whose
`data` key is missing — can raise (see the counterexample). -/
theorem sync_returns_tally_unless_malformed :
    (∀ (cfg : Bool) (profResps donResps : List Transport) (hub : HubEnvE)
        (dry quick : Bool),
      (∀ t ∈ profResps, WFTransportB WFProfileB t = true) →
      (∀ t ∈ donResps, WFTransportB WFDonationB t = true) →
      (∀ e, WFSearchContactB (hub.searchContact e) = true) →
      (∀ c, WFHubDictB (hub.patch c) = true) →
      ∃ r, donationSyncE cfg profResps donResps hub dry quick = .ok r)
    ∧ (∀ (cfg : Bool) (t : Transport) (search create : String → HubResp)
          (today : String) (dry sa fo : Bool),
        WFTransportB WFEventB t = true →
        (∀ x, WFCreateB (create x) = true) →
        ∃ r, eventSyncE cfg t search create today dry sa fo = .ok r)
    ∧ (∀ (cfg : Bool) (profResps : List Transport) (hub : NewsHubE)
          (dry quick : Bool),
        (∀ t ∈ profResps, WFTransportB WFProfileB t = true) →
        (∀ e, WFStatusB (hub.status e) = true) →
        (∀ e, WFHubDictB (hub.subscribe e) = true) →
        ∃ r, newsletterSyncE cfg profResps hub dry quick = .ok r)
    ∧ (∀ (cfg : Bool) (donResps : List Transport) (hub : HubEnvE)
          (dry quick : Bool) (m : String),
        donationSyncE cfg [Transport.reqError m] donResps hub dry quick
          = .ok { donResults0 with
              details := ["No profiles with emails found in CSuite"] })
    ∧ (∀ (search create : String → HubResp) (today : String)
          (dry sa fo : Bool) (m : String),
        eventSyncE true (Transport.reqError m) search create today dry sa fo
          = .ok { evResults0 with
              errors := 1
              details := ["CSuite error: " ++ m] })
    ∧ (∀ (cfg : Bool) (hub : NewsHubE) (dry quick : Bool) (m : String),
        newsletterSyncE cfg [Transport.reqError m] hub dry quick
          = .ok { newsResults0 with
              details := ["No profiles with newsletter opt-in found"] }) :=
  ⟨fun cfg pr dr hub dry quick h1 h2 h3 h4 =>
      donationSyncE_ok cfg pr dr hub dry quick h1 h2 h3 h4,
   fun cfg t search create today dry sa fo h1 h2 =>
      eventSyncE_ok cfg t search create today dry sa fo h1 h2,
   fun cfg pr hub dry quick h1 h2 h3 =>
      newsletterSyncE_ok cfg pr hub dry quick h1 h2 h3,
   donationSyncE_total_failure,
   eventSyncE_total_failure,
   newsletterSyncE_total_failure⟩

/-- A well-shaped profile-page response for the C7 witness. -/
def cexProfResp : Transport :=
  Transport.ok (.dict [("success", .int 1),
    ("data", .dict [("results", .list
      [.dict [("profile_id", .str "p1"), ("primary_email", .str "A@X ")]])])])

/-- A well-shaped donation-page response for the C7 witness. -/
def cexDonResp : Transport :=
  Transport.ok (.dict [("success", .int 1),
    ("data", .dict [("results", .list
      [.dict [("profile_id", .str "p1"), ("donation_amount", .str "10"),
        ("donation_date", .str "2024-01-01")]])])])

/-- A well-shaped HubSpot environment for the C7 witness. -/
def cexGoodHub : HubEnvE :=
  ⟨fun _ => .val (.dict [("results", .list [.dict [("id", .int 5)]])]),
   fun _ => .val (.dict [("ok", .bool true)])⟩

/-- Witness for the amended C7 at a concrete well-shaped environment. -/
theorem sync_returns_tally_unless_malformed_witness :
    (∀ t ∈ [cexProfResp], WFTransportB WFProfileB t = true)
    ∧ (∀ t ∈ [cexDonResp], WFTransportB WFDonationB t = true)
    ∧ (∀ e, WFSearchContactB (cexGoodHub.searchContact e) = true)
    ∧ (∀ c, WFHubDictB (cexGoodHub.patch c) = true)
    ∧ ∃ r, donationSyncE true [cexProfResp] [cexDonResp] cexGoodHub false false
        = .ok r :=
  ⟨by decide, by decide,
   by
     intro e
     show WFSearchContactB (HubResp.val
       (PyObj.dict [("results", PyObj.list [PyObj.dict [("id", PyObj.int 5)]])])) = true
     decide,
   by
     intro c
     show WFHubDictB (HubResp.val (PyObj.dict [("ok", PyObj.bool true)])) = true
     decide,
    sync_returns_tally_unless_malformed.1 true [cexProfResp] [cexDonResp]
      cexGoodHub false false (by decide) (by decide)
      (by
        intro e
        show WFSearchContactB (HubResp.val
          (PyObj.dict [("results", PyObj.list [PyObj.dict [("id", PyObj.int 5)]])])) = true
        decide)
      (by
        intro c
        show WFHubDictB (HubResp.val (PyObj.dict [("ok", PyObj.bool true)])) = true
        decide)⟩
